import Mathlib

/-!
Shallow embedding of the ink! contract `polkadotrelayer` (file
`src/polkadotrelayer/src/lib.rs`) of the repository.

Modelling conventions:
* byte strings (`[u8; 32]`, `Vec<u8>`) are `List Nat` (each entry one byte);
* `Balance` (`u128`) and `BlockNumber` (`u32`) are `Nat`, with every checked
  operation of the source (`checked_mul`, `checked_sub`, `checked_add`,
  `checked_div`, the `u64` counter increment) modelled explicitly against the
  corresponding power of two;
* the host environment of a call (caller, block number, transferred value,
  whether a native value transfer to a given recipient succeeds) is a record
  `Env`; the host SHA-256 primitive is a parameter `hashFn : Bytes -> Bytes`;
* `ink::storage::Mapping` is an association list with overwriting insert;
* each `#[ink(message)]` body is translated literally as a function
  `State -> Outcome`, returning the mutated state, the list of native value
  transfers it executed, and the `Result`.  The ink! dispatcher reverts all
  state changes (including executed transfers) of a message that returns
  `Err`; the wrapper `tx` models that dispatch semantics, and the step
  relation of the whole contract is built from the wrapped messages.
-/

namespace polkadotrelayer

/-- A byte string; each entry is one byte. -/
abbrev Bytes : Type := List Nat

/-- `Address = [u8; 32]` of the source, compared only for equality. -/
abbrev Address : Type := Bytes

/-- `2 ^ 128`, the bound of `Balance = u128`. -/
def U128_BOUND : Nat := 2 ^ 128

/-- `2 ^ 64`, the bound of the `u64` contract counter. -/
def U64_BOUND : Nat := 2 ^ 64

/-- `u128::checked_mul`. -/
def u128_checked_mul (a b : Nat) : Option Nat :=
  if a * b < U128_BOUND then some (a * b) else none

/-- `u128::checked_add`. -/
def u128_checked_add (a b : Nat) : Option Nat :=
  if a + b < U128_BOUND then some (a + b) else none

/-- `u128::checked_sub` (also used for `u32` block-number subtraction:
on `Nat` the underflow condition is the same). -/
def checked_sub (a b : Nat) : Option Nat :=
  if b ≤ a then some (a - b) else none

/-- `u128::checked_div`. -/
def checked_div (a b : Nat) : Option Nat :=
  if b = 0 then none else some (a / b)

/-- Little-endian fixed-width byte encoding (`to_le_bytes`). -/
def toLEBytes : Nat → Nat → Bytes
  | 0, _ => []
  | w + 1, n => n % 256 :: toLEBytes w (n / 256)

/-- Lookup in an association list (`Mapping::get`). -/
def alget {κ α : Type} [DecidableEq κ] (l : List (κ × α)) (k : κ) : Option α :=
  match l with
  | [] => none
  | (k', v) :: t => if k' = k then some v else alget t k

/-- Overwriting insert into an association list (`Mapping::insert`). -/
def alput {κ α : Type} [DecidableEq κ] (l : List (κ × α)) (k : κ) (v : α) :
    List (κ × α) :=
  match l with
  | [] => [(k, v)]
  | (k', v') :: t => if k' = k then (k, v) :: t else (k', v') :: alput t k v

theorem alget_alput_self {κ α : Type} [DecidableEq κ]
    (l : List (κ × α)) (k : κ) (v : α) : alget (alput l k v) k = some v := by
  induction l with
  | nil => simp [alput, alget]
  | cons hd t ih =>
    obtain ⟨k', v'⟩ := hd
    by_cases h : k' = k <;> simp [alput, alget, h, ih]

theorem alget_alput_ne {κ α : Type} [DecidableEq κ]
    (l : List (κ × α)) (k k' : κ) (v : α) (hne : k ≠ k') :
    alget (alput l k v) k' = alget l k' := by
  induction l with
  | nil => simp [alput, alget, hne]
  | cons hd t ih =>
    obtain ⟨k₀, v₀⟩ := hd
    by_cases h : k₀ = k
    · subst h
      simp [alput, alget, hne]
    · simp [alput, alget, h, ih]

/-- Any binding found after an `alput` is either the inserted one or an
original binding. -/
theorem alget_alput_cases {κ α : Type} [DecidableEq κ]
    (l : List (κ × α)) (k k' : κ) (v : α) (w : α)
    (h : alget (alput l k v) k' = some w) :
    (k' = k ∧ w = v) ∨ alget l k' = some w := by
  by_cases hk : k' = k
  · subst hk
    rw [alget_alput_self] at h
    exact Or.inl ⟨rfl, (Option.some.injEq _ _ ▸ h).symm⟩
  · right
    rwa [alget_alput_ne l k k' v (fun he => hk he.symm)] at h

/-- The error enum of the source. -/
inductive Error where
  | ContractAlreadyExists
  | ContractNotFound
  | InvalidTimelock
  | InsufficientFunds
  | UnauthorizedWithdraw
  | UnauthorizedRefund
  | InvalidHashlock
  | AlreadyProcessed
  | TimelockNotExpired
  | TimelockExpired
  | TransferFailed
  | InvalidFee
  | InvalidChainId
  | RelayerAlreadySet
  | TimelockTooShort
  | TimelockTooLong
  | Unauthorized
  | ConversionError
  | Overflow
deriving DecidableEq, Repr

/-- Rust `Result<α, Error>`. -/
inductive RResult (α : Type) where
  | ok : α → RResult α
  | err : Error → RResult α
deriving DecidableEq, Repr

/-- `enum CrossChainAddress`. -/
inductive CrossChainAddress where
  | Ethereum : Bytes → CrossChainAddress
  | Substrate : Bytes → CrossChainAddress
  | Raw : Bytes → CrossChainAddress
deriving DecidableEq, Repr

/-- `struct LockContract` of the source, field for field. -/
structure LockContract where
  sender : Address
  receiver : Address
  amount : Nat
  hashlock : Bytes
  timelock : Nat
  withdrawn : Bool
  refunded : Bool
  preimage : Option Bytes
  swap_id : Bytes
  source_chain : Nat
  dest_chain : Nat
  dest_amount : Nat
  fee : Nat
  relayer : Option Address
  sender_cross_address : Option Bytes
  receiver_cross_address : Option Bytes
deriving DecidableEq, Repr

/-- `struct FusionHtlc`, the `#[ink(storage)]` state of the contract. -/
structure FusionHtlc where
  contracts : List (Bytes × LockContract)
  contract_counter : Nat
  admin : Address
  address_mappings : List (Address × CrossChainAddress)
  protocol_fee_bps : Nat
  protocol_fees : Nat
  min_timelock : Nat
  max_timelock : Nat
deriving DecidableEq, Repr

/-- The constructor `FusionHtlc::new()`; `caller` is the deploying account,
which becomes the admin. -/
def FusionHtlc.new (caller : Address) : FusionHtlc :=
  { contracts := []
    contract_counter := 0
    admin := caller
    address_mappings := []
    protocol_fee_bps := 30
    protocol_fees := 0
    min_timelock := 100
    max_timelock := 14400 }

/-- Host environment of one message call: `env().caller()`,
`env().block_number()`, `env().transferred_value()`, and whether
`env().transfer(to, amount)` succeeds. -/
structure Env where
  caller : Address
  block_number : Nat
  transferred_value : Nat
  transfer_ok : Address → Nat → Bool

/-- Result of executing one message body: the mutated storage, the native
value transfers the body executed (in order), and the returned `Result`. -/
structure Outcome (α : Type) where
  st : FusionHtlc
  transfers : List (Address × Nat)
  res : RResult α

/-- The ink! dispatcher: a message returning `Err` has all its storage
mutations and executed transfers rolled back. -/
def tx {α : Type} (st : FusionHtlc) (o : Outcome α) : Outcome α :=
  match o.res with
  | .err e => ⟨st, [], .err e⟩
  | .ok _ => o

/-- `get_transferred_balance`: rejects a zero attached value, then converts
the `U256` transferred value to `u128` (`ConversionError` when it does not
fit). -/
def get_transferred_balance (env : Env) : RResult Nat :=
  if env.transferred_value = 0 then .err .InsufficientFunds
  else if U128_BOUND ≤ env.transferred_value then .err .ConversionError
  else .ok env.transferred_value

/-- `validate_timelock_internal`: the timelock must be in the future and
`timelock - current_block` must lie in `[min_timelock, max_timelock]`. -/
def validate_timelock_internal (st : FusionHtlc) (env : Env) (timelock : Nat) :
    RResult Unit :=
  let current_block := env.block_number
  if timelock ≤ current_block then .err .InvalidTimelock
  else
    match checked_sub timelock current_block with
    | none => .err .InvalidTimelock
    | some time_diff =>
      if time_diff < st.min_timelock then .err .TimelockTooShort
      else if st.max_timelock < time_diff then .err .TimelockTooLong
      else .ok ()

/-- `validate_contract_params`: timelock validation plus
`source_chain != dest_chain`. -/
def validate_contract_params (st : FusionHtlc) (env : Env) (timelock : Nat)
    (source_chain dest_chain : Nat) : RResult Unit :=
  match validate_timelock_internal st env timelock with
  | .err e => .err e
  | .ok _ =>
    if source_chain = dest_chain then .err .InvalidChainId else .ok ()

/-- `calculate_fees`:
`fee = amount.checked_mul(bps)?.checked_div(10000)?`,
`net_amount = amount.checked_sub(fee)?`. -/
def calculate_fees (st : FusionHtlc) (amount : Nat) : RResult (Nat × Nat) :=
  match u128_checked_mul amount st.protocol_fee_bps with
  | none => .err .Overflow
  | some prod =>
    match checked_div prod 10000 with
    | none => .err .Overflow
    | some fee =>
      match checked_sub amount fee with
      | none => .err .Overflow
      | some net_amount => .ok (net_amount, fee)

/-- `get_contract_or_error`. -/
def get_contract_or_error (st : FusionHtlc) (contract_id : Bytes) :
    RResult LockContract :=
  match alget st.contracts contract_id with
  | none => .err .ContractNotFound
  | some c => .ok c

/-- `validate_withdrawal_auth`: caller must be the receiver or the registered
relayer, and the contract must be neither withdrawn nor refunded. -/
def validate_withdrawal_auth (st : FusionHtlc) (contract_id : Bytes)
    (caller : Address) : RResult LockContract :=
  match get_contract_or_error st contract_id with
  | .err e => .err e
  | .ok contract =>
    if contract.receiver ≠ caller ∧ contract.relayer ≠ some caller then
      .err .UnauthorizedWithdraw
    else if contract.withdrawn || contract.refunded then
      .err .AlreadyProcessed
    else .ok contract

/-- `validate_withdrawal_timing`: fails once `current_block >= timelock`. -/
def validate_withdrawal_timing (env : Env) (contract : LockContract) :
    RResult Unit :=
  if env.block_number ≥ contract.timelock then .err .TimelockExpired
  else .ok ()

/-- `validate_refund_auth`: caller must be the sender, and the contract must
be neither withdrawn nor refunded. -/
def validate_refund_auth (st : FusionHtlc) (contract_id : Bytes)
    (caller : Address) : RResult LockContract :=
  match get_contract_or_error st contract_id with
  | .err e => .err e
  | .ok contract =>
    if contract.sender ≠ caller then .err .UnauthorizedRefund
    else if contract.withdrawn || contract.refunded then
      .err .AlreadyProcessed
    else .ok contract

/-- `validate_refund_timing`: fails while `current_block < timelock`. -/
def validate_refund_timing (env : Env) (contract : LockContract) :
    RResult Unit :=
  if env.block_number < contract.timelock then .err .TimelockNotExpired
  else .ok ()

/-- `validate_preimage`: the SHA-256 hash of the preimage must equal the
stored hashlock.  `hashFn` is the host SHA-256 primitive. -/
def validate_preimage (hashFn : Bytes → Bytes) (contract : LockContract)
    (preimage : Bytes) : RResult Unit :=
  if hashFn preimage ≠ contract.hashlock then .err .InvalidHashlock
  else .ok ()

/-- `execute_transfer`: the host value-transfer primitive, which may fail. -/
def execute_transfer (env : Env) (recipient : Address) (amount : Nat) :
    RResult Unit :=
  if env.transfer_ok recipient amount then .ok () else .err .TransferFailed

/-- `ensure_admin`. -/
def ensure_admin (st : FusionHtlc) (env : Env) : RResult Unit :=
  if env.caller ≠ st.admin then .err .Unauthorized else .ok ()

/-- `generate_contract_id`: increments the `u64` counter, then hashes the
concatenation of sender, receiver, `amount.to_le_bytes()` (16 bytes),
hashlock, `timelock.to_le_bytes()` (4 bytes), swap id and
`counter.to_le_bytes()` (8 bytes). -/
def generate_contract_id (hashFn : Bytes → Bytes) (st : FusionHtlc)
    (sender receiver : Address) (amount : Nat) (hashlock : Bytes)
    (timelock : Nat) (swap_id : Bytes) : Bytes × FusionHtlc :=
  let counter' := (st.contract_counter + 1) % U64_BOUND
  let data := sender ++ receiver ++ toLEBytes 16 amount ++ hashlock ++
    toLEBytes 4 timelock ++ swap_id ++ toLEBytes 8 counter'
  (hashFn data, { st with contract_counter := counter' })

/-- Message `map_address`: stores the caller's cross-chain address. -/
def map_address (env : Env) (st : FusionHtlc)
    (cross_address : CrossChainAddress) : Outcome Unit :=
  let caller := env.caller
  ⟨{ st with address_mappings := alput st.address_mappings caller cross_address },
    [], .ok ()⟩

/-- Message `new_contract`: validates parameters, computes fees, derives the
contract id, stores the new `LockContract` and accumulates the fee. -/
def new_contract (hashFn : Bytes → Bytes) (env : Env) (st : FusionHtlc)
    (receiver : Address) (hashlock : Bytes) (timelock : Nat) (swap_id : Bytes)
    (source_chain dest_chain : Nat) (dest_amount : Nat)
    (sender_cross_address receiver_cross_address : Option Bytes) :
    Outcome Bytes :=
  let sender := env.caller
  match get_transferred_balance env with
  | .err e => ⟨st, [], .err e⟩
  | .ok amount =>
  match validate_contract_params st env timelock source_chain dest_chain with
  | .err e => ⟨st, [], .err e⟩
  | .ok _ =>
  match calculate_fees st amount with
  | .err e => ⟨st, [], .err e⟩
  | .ok (net_amount, fee) =>
  match generate_contract_id hashFn st sender receiver net_amount hashlock
      timelock swap_id with
  | (contract_id, st₁) =>
  if (alget st₁.contracts contract_id).isSome then
    ⟨st₁, [], .err .ContractAlreadyExists⟩
  else
    let contract : LockContract :=
      { sender := sender
        receiver := receiver
        amount := net_amount
        hashlock := hashlock
        timelock := timelock
        withdrawn := false
        refunded := false
        preimage := none
        swap_id := swap_id
        source_chain := source_chain
        dest_chain := dest_chain
        dest_amount := dest_amount
        fee := fee
        relayer := none
        sender_cross_address := sender_cross_address
        receiver_cross_address := receiver_cross_address }
    let st₂ := { st₁ with contracts := alput st₁.contracts contract_id contract }
    match u128_checked_add st₂.protocol_fees fee with
    | none => ⟨st₂, [], .err .Overflow⟩
    | some fees' => ⟨{ st₂ with protocol_fees := fees' }, [], .ok contract_id⟩

/-- Message `register_relayer`: any caller; fails if the contract is missing
or its relayer is already set, else records the caller as relayer. -/
def register_relayer (env : Env) (st : FusionHtlc) (contract_id : Bytes) :
    Outcome Unit :=
  let caller := env.caller
  match get_contract_or_error st contract_id with
  | .err e => ⟨st, [], .err e⟩
  | .ok contract =>
  if contract.relayer.isSome then ⟨st, [], .err .RelayerAlreadySet⟩
  else
    let contract' := { contract with relayer := some caller }
    ⟨{ st with contracts := alput st.contracts contract_id contract' }, [], .ok ()⟩

/-- Message `withdraw`: authorization, timing and preimage checks, then sets
`withdrawn`, stores the preimage and transfers `amount` to the receiver.
This is the literal body; the dispatcher wrapping (`tx`) reverts it when it
returns `Err`. -/
def withdraw (hashFn : Bytes → Bytes) (env : Env) (st : FusionHtlc)
    (contract_id : Bytes) (preimage : Bytes) : Outcome Unit :=
  let caller := env.caller
  match validate_withdrawal_auth st contract_id caller with
  | .err e => ⟨st, [], .err e⟩
  | .ok contract =>
  match validate_withdrawal_timing env contract with
  | .err e => ⟨st, [], .err e⟩
  | .ok _ =>
  match validate_preimage hashFn contract preimage with
  | .err e => ⟨st, [], .err e⟩
  | .ok _ =>
  let contract' := { contract with withdrawn := true, preimage := some preimage }
  let st₁ := { st with contracts := alput st.contracts contract_id contract' }
  match execute_transfer env contract.receiver contract.amount with
  | .err e => ⟨st₁, [], .err e⟩
  | .ok _ => ⟨st₁, [(contract.receiver, contract.amount)], .ok ()⟩

/-- Message `refund`: authorization and timing checks, then sets `refunded`
and transfers `amount` back to the sender.  Literal body; `tx` reverts it on
`Err`. -/
def refund (env : Env) (st : FusionHtlc) (contract_id : Bytes) :
    Outcome Unit :=
  let caller := env.caller
  match validate_refund_auth st contract_id caller with
  | .err e => ⟨st, [], .err e⟩
  | .ok contract =>
  match validate_refund_timing env contract with
  | .err e => ⟨st, [], .err e⟩
  | .ok _ =>
  let contract' := { contract with refunded := true }
  let st₁ := { st with contracts := alput st.contracts contract_id contract' }
  match execute_transfer env contract.sender contract.amount with
  | .err e => ⟨st₁, [], .err e⟩
  | .ok _ => ⟨st₁, [(contract.sender, contract.amount)], .ok ()⟩

/-- Message `update_admin`: admin-only admin replacement. -/
def update_admin (env : Env) (st : FusionHtlc) (new_admin : Address) :
    Outcome Unit :=
  match ensure_admin st env with
  | .err e => ⟨st, [], .err e⟩
  | .ok _ => ⟨{ st with admin := new_admin }, [], .ok ()⟩

/-- Message `update_protocol_fee`: admin-only; rejects rates above 1000 bps. -/
def update_protocol_fee (env : Env) (st : FusionHtlc) (new_fee_bps : Nat) :
    Outcome Unit :=
  match ensure_admin st env with
  | .err e => ⟨st, [], .err e⟩
  | .ok _ =>
  if 1000 < new_fee_bps then ⟨st, [], .err .InvalidFee⟩
  else ⟨{ st with protocol_fee_bps := new_fee_bps }, [], .ok ()⟩

/-- Message `withdraw_protocol_fees`: admin-only; rejects a zero accumulator;
zeroes the accumulator, attempts the transfer to the admin, and restores the
accumulator (returning `TransferFailed`) when the transfer fails. -/
def withdraw_protocol_fees (env : Env) (st : FusionHtlc) : Outcome Unit :=
  match ensure_admin st env with
  | .err e => ⟨st, [], .err e⟩
  | .ok _ =>
  let fees := st.protocol_fees
  if fees = 0 then ⟨st, [], .err .InsufficientFunds⟩
  else
    let st₁ := { st with protocol_fees := 0 }
    match execute_transfer env st.admin fees with
    | .err _ => ⟨{ st₁ with protocol_fees := fees }, [], .err .TransferFailed⟩
    | .ok _ => ⟨st₁, [(st.admin, fees)], .ok ()⟩

/-- One call to any state-changing message of the contract, together with the
host environment the call runs in. -/
inductive Msg where
  | map_address (env : Env) (cross_address : CrossChainAddress)
  | new_contract (env : Env) (receiver : Address) (hashlock : Bytes)
      (timelock : Nat) (swap_id : Bytes) (source_chain dest_chain : Nat)
      (dest_amount : Nat) (sca rca : Option Bytes)
  | register_relayer (env : Env) (contract_id : Bytes)
  | withdraw (env : Env) (contract_id : Bytes) (preimage : Bytes)
  | refund (env : Env) (contract_id : Bytes)
  | update_admin (env : Env) (new_admin : Address)
  | update_protocol_fee (env : Env) (new_fee_bps : Nat)
  | withdraw_protocol_fees (env : Env)

/-- Dispatch one message under the ink! revert-on-`Err` semantics and keep
the resulting storage. -/
def stepM (hashFn : Bytes → Bytes) (st : FusionHtlc) : Msg → FusionHtlc
  | .map_address env ca => (tx st (map_address env st ca)).st
  | .new_contract env r hl tl sw sc dc da sca rca =>
      (tx st (new_contract hashFn env st r hl tl sw sc dc da sca rca)).st
  | .register_relayer env cid => (tx st (register_relayer env st cid)).st
  | .withdraw env cid p => (tx st (withdraw hashFn env st cid p)).st
  | .refund env cid => (tx st (refund env st cid)).st
  | .update_admin env a => (tx st (update_admin env st a)).st
  | .update_protocol_fee env f => (tx st (update_protocol_fee env st f)).st
  | .withdraw_protocol_fees env => (tx st (withdraw_protocol_fees env st)).st

/-- Reachable contract states: a freshly constructed contract followed by any
sequence of message calls. -/
inductive reach (hashFn : Bytes → Bytes) : FusionHtlc → Prop
  | init (admin : Address) : reach hashFn (FusionHtlc.new admin)
  | step {st : FusionHtlc} (m : Msg) :
      reach hashFn st → reach hashFn (stepM hashFn st m)

/-! Concrete fixtures used by witnesses and counterexamples.  `hashFn₀`
stands in for the host SHA-256 primitive (the model is parametric in it). -/

/-- A concrete stand-in for the host hash primitive. -/
def hashFn₀ : Bytes → Bytes := fun _ => [7]

/-- Environment of the fixture creation call: caller `[1]`, block 0, 1000
units attached, transfers succeed. -/
def env_new₀ : Env := ⟨[1], 0, 1000, fun _ _ => true⟩

/-- Freshly deployed contract, admin `[1]`. -/
def st₀ : FusionHtlc := FusionHtlc.new [1]

/-- Fixture creation: receiver `[2]`, hashlock `[7]`, timelock 100,
chains 1 to 2. -/
def out_create₀ : Outcome Bytes :=
  new_contract hashFn₀ env_new₀ st₀ [2] [7] 100 [9] 1 2 900 none none

/-- State holding the single fixture contract under id `[7]`. -/
def st₁ : FusionHtlc := (tx st₀ out_create₀).st

/-- Environment of the fixture withdrawal: caller is the receiver `[2]`,
block 50 (before the timelock), transfers succeed. -/
def env_wd₀ : Env := ⟨[2], 50, 0, fun _ _ => true⟩

/-- Fixture withdrawal with the correct preimage `[5]`
(`hashFn₀ [5] = [7]`). -/
def out_withdraw₀ : Outcome Unit := withdraw hashFn₀ env_wd₀ st₁ [7] [5]

/-- State in which the fixture contract has been withdrawn. -/
def st₂ : FusionHtlc := (tx st₁ out_withdraw₀).st

/-! Helper lemmas inverting the validation helpers. -/

theorem get_transferred_balance_ok {env : Env} {amount : Nat}
    (h : get_transferred_balance env = .ok amount) :
    amount = env.transferred_value ∧ amount ≠ 0 ∧ amount < U128_BOUND := by
  unfold get_transferred_balance at h
  split_ifs at h with h0 h1 <;> simp at h
  omega

/-- Closed-form description of `calculate_fees`. -/
theorem calculate_fees_eq (st : FusionHtlc) (amount : Nat) :
    calculate_fees st amount =
      if amount * st.protocol_fee_bps < U128_BOUND then
        if amount * st.protocol_fee_bps / 10000 ≤ amount then
          .ok (amount - amount * st.protocol_fee_bps / 10000,
            amount * st.protocol_fee_bps / 10000)
        else .err .Overflow
      else .err .Overflow := by
  unfold calculate_fees u128_checked_mul checked_div checked_sub
  by_cases h1 : amount * st.protocol_fee_bps < U128_BOUND
  · by_cases h2 : amount * st.protocol_fee_bps / 10000 ≤ amount
    · simp [h1, h2]
    · simp [h1, h2]
  · simp [h1]

theorem calculate_fees_ok {st : FusionHtlc} {amount net fee : Nat}
    (h : calculate_fees st amount = .ok (net, fee)) :
    fee = amount * st.protocol_fee_bps / 10000 ∧ net = amount - fee ∧
      fee ≤ amount ∧ amount * st.protocol_fee_bps < U128_BOUND := by
  rw [calculate_fees_eq] at h
  split_ifs at h with h1 h2 <;> simp at h
  obtain ⟨hn, hf⟩ := h
  omega

theorem calculate_fees_overflow {st : FusionHtlc} {amount : Nat}
    (h : U128_BOUND ≤ amount * st.protocol_fee_bps) :
    calculate_fees st amount = .err .Overflow := by
  rw [calculate_fees_eq]
  simp [Nat.not_lt.mpr h]

/-- C3: for every successful contract creation with gross attached deposit
`g` and stored fee rate `r` (basis points), the stored contract has
`fee = g * r / 10000` (floor division), `amount = g - fee`, and
`amount + fee = g`; and the fee multiplication is overflow-checked, a
product not fitting in `u128` making `calculate_fees` (and hence the
creation) return `Error.Overflow` rather than truncate. -/
theorem C3_fee_accounting :
    (∀ (hashFn : Bytes → Bytes) (env : Env) (st : FusionHtlc)
      (receiver : Address) (hashlock : Bytes) (timelock : Nat)
      (swap_id : Bytes) (sc dc da : Nat) (sca rca : Option Bytes)
      (cid : Bytes),
      (new_contract hashFn env st receiver hashlock timelock swap_id sc dc da
          sca rca).res = .ok cid →
      ∃ c : LockContract,
        alget (new_contract hashFn env st receiver hashlock timelock swap_id
            sc dc da sca rca).st.contracts cid = some c ∧
        c.fee = env.transferred_value * st.protocol_fee_bps / 10000 ∧
        c.amount = env.transferred_value - c.fee ∧
        c.amount + c.fee = env.transferred_value) ∧
    (∀ (st : FusionHtlc) (amount : Nat),
      U128_BOUND ≤ amount * st.protocol_fee_bps →
      calculate_fees st amount = .err .Overflow) := by
  constructor
  · intro hashFn env st receiver hashlock timelock swap_id sc dc da sca rca
      cid h
    simp only [new_contract, generate_contract_id] at h ⊢
    cases hgtb : get_transferred_balance env with
    | err e => rw [hgtb] at h; simp at h
    | ok amount =>
    rw [hgtb] at h
    dsimp only at h ⊢
    cases hvp : validate_contract_params st env timelock sc dc with
    | err e => rw [hvp] at h; simp at h
    | ok u =>
    rw [hvp] at h
    dsimp only at h ⊢
    cases hcf : calculate_fees st amount with
    | err e => rw [hcf] at h; simp at h
    | ok nf =>
    obtain ⟨net, fee⟩ := nf
    rw [hcf] at h
    dsimp only at h ⊢
    split at h
    · simp at h
    · next hex =>
      rw [if_neg hex]
      cases hadd : u128_checked_add st.protocol_fees fee with
      | none => rw [hadd] at h; simp at h
      | some fees' =>
      rw [hadd] at h
      dsimp only at h ⊢
      simp only [RResult.ok.injEq] at h
      subst h
      refine ⟨_, alget_alput_self _ _ _, ?_⟩
      obtain ⟨hg, _, _⟩ := get_transferred_balance_ok hgtb
      obtain ⟨hf, hn, hle, _⟩ := calculate_fees_ok hcf
      subst hg
      dsimp only
      omega
  · intro st amount h
    exact calculate_fees_overflow h

/-- Witness for C3 at the concrete fixture creation (gross 1000, 30 bps:
fee 3, net 997) and a concrete overflowing product. -/
theorem C3_fee_accounting_witness :
    (∃ c : LockContract,
      alget (new_contract hashFn₀ env_new₀ st₀ [2] [7] 100 [9] 1 2 900 none
          none).st.contracts [7] = some c ∧
      c.fee = env_new₀.transferred_value * st₀.protocol_fee_bps / 10000 ∧
      c.amount = env_new₀.transferred_value - c.fee ∧
      c.amount + c.fee = env_new₀.transferred_value) ∧
    calculate_fees st₀ (2 ^ 124) = .err .Overflow :=
  ⟨C3_fee_accounting.1 hashFn₀ env_new₀ st₀ [2] [7] 100 [9] 1 2 900 none none
      [7] (by decide),
    C3_fee_accounting.2 st₀ (2 ^ 124) (by decide)⟩

/-! Closed-form equations for the authorization helpers and for the
`withdraw` and `refund` message bodies. -/

theorem validate_withdrawal_auth_none {st : FusionHtlc} {cid : Bytes}
    {caller : Address} (hg : alget st.contracts cid = none) :
    validate_withdrawal_auth st cid caller = .err .ContractNotFound := by
  unfold validate_withdrawal_auth get_contract_or_error
  rw [hg]

theorem validate_withdrawal_auth_some {st : FusionHtlc} {cid : Bytes}
    {caller : Address} {c : LockContract}
    (hg : alget st.contracts cid = some c) :
    validate_withdrawal_auth st cid caller =
      if c.receiver ≠ caller ∧ c.relayer ≠ some caller then
        .err .UnauthorizedWithdraw
      else if c.withdrawn || c.refunded then .err .AlreadyProcessed
      else .ok c := by
  unfold validate_withdrawal_auth get_contract_or_error
  rw [hg]

theorem validate_refund_auth_none {st : FusionHtlc} {cid : Bytes}
    {caller : Address} (hg : alget st.contracts cid = none) :
    validate_refund_auth st cid caller = .err .ContractNotFound := by
  unfold validate_refund_auth get_contract_or_error
  rw [hg]

theorem validate_refund_auth_some {st : FusionHtlc} {cid : Bytes}
    {caller : Address} {c : LockContract}
    (hg : alget st.contracts cid = some c) :
    validate_refund_auth st cid caller =
      if c.sender ≠ caller then .err .UnauthorizedRefund
      else if c.withdrawn || c.refunded then .err .AlreadyProcessed
      else .ok c := by
  unfold validate_refund_auth get_contract_or_error
  rw [hg]

theorem validate_withdrawal_auth_ok {st : FusionHtlc} {cid : Bytes}
    {caller : Address} {c : LockContract}
    (h : validate_withdrawal_auth st cid caller = .ok c) :
    alget st.contracts cid = some c ∧
      (c.receiver = caller ∨ c.relayer = some caller) ∧
      c.withdrawn = false ∧ c.refunded = false := by
  cases hg : alget st.contracts cid with
  | none => rw [validate_withdrawal_auth_none hg] at h; simp at h
  | some c' =>
    rw [validate_withdrawal_auth_some hg] at h
    split_ifs at h with h1 h2 <;> simp at h
    subst h
    simp only [Bool.or_eq_true, not_or, Bool.not_eq_true] at h2
    exact ⟨rfl, by tauto, h2.1, h2.2⟩

theorem validate_refund_auth_ok {st : FusionHtlc} {cid : Bytes}
    {caller : Address} {c : LockContract}
    (h : validate_refund_auth st cid caller = .ok c) :
    alget st.contracts cid = some c ∧ c.sender = caller ∧
      c.withdrawn = false ∧ c.refunded = false := by
  cases hg : alget st.contracts cid with
  | none => rw [validate_refund_auth_none hg] at h; simp at h
  | some c' =>
    rw [validate_refund_auth_some hg] at h
    split_ifs at h with h1 h2 <;> simp at h
    subst h
    simp only [Bool.or_eq_true, not_or, Bool.not_eq_true] at h2
    simp only [ne_eq, not_not] at h1
    exact ⟨rfl, h1, h2.1, h2.2⟩

/-- When the authorization check fails, `withdraw` changes nothing. -/
theorem withdraw_eq_err {hashFn : Bytes → Bytes} {env : Env}
    {st : FusionHtlc} {cid p : Bytes} {e : Error}
    (hauth : validate_withdrawal_auth st cid env.caller = .err e) :
    withdraw hashFn env st cid p = ⟨st, [], .err e⟩ := by
  unfold withdraw
  dsimp only
  rw [hauth]

/-- Behaviour of `withdraw` past a successful authorization check. -/
theorem withdraw_eq {hashFn : Bytes → Bytes} {env : Env} {st : FusionHtlc}
    {cid p : Bytes} {c : LockContract}
    (hauth : validate_withdrawal_auth st cid env.caller = .ok c) :
    withdraw hashFn env st cid p =
      if env.block_number ≥ c.timelock then ⟨st, [], .err .TimelockExpired⟩
      else if hashFn p ≠ c.hashlock then ⟨st, [], .err .InvalidHashlock⟩
      else if env.transfer_ok c.receiver c.amount then
        ⟨{ st with contracts := alput st.contracts cid ({ c with withdrawn := true, preimage := some p }) }, [(c.receiver, c.amount)], .ok ()⟩
      else
        ⟨{ st with contracts := alput st.contracts cid ({ c with withdrawn := true, preimage := some p }) }, [], .err .TransferFailed⟩ := by
  unfold withdraw validate_withdrawal_timing validate_preimage
    execute_transfer
  dsimp only
  rw [hauth]
  dsimp only
  split_ifs <;> rfl

/-- When the authorization check fails, `refund` changes nothing. -/
theorem refund_eq_err {env : Env} {st : FusionHtlc} {cid : Bytes} {e : Error}
    (hauth : validate_refund_auth st cid env.caller = .err e) :
    refund env st cid = ⟨st, [], .err e⟩ := by
  unfold refund
  dsimp only
  rw [hauth]

/-- Behaviour of `refund` past a successful authorization check. -/
theorem refund_eq {env : Env} {st : FusionHtlc} {cid : Bytes}
    {c : LockContract}
    (hauth : validate_refund_auth st cid env.caller = .ok c) :
    refund env st cid =
      if env.block_number < c.timelock then ⟨st, [], .err .TimelockNotExpired⟩
      else if env.transfer_ok c.sender c.amount then
        ⟨{ st with contracts := alput st.contracts cid ({ c with refunded := true }) }, [(c.sender, c.amount)], .ok ()⟩
      else
        ⟨{ st with contracts := alput st.contracts cid ({ c with refunded := true }) }, [], .err .TransferFailed⟩ := by
  unfold refund validate_refund_timing execute_transfer
  dsimp only
  rw [hauth]
  dsimp only
  split_ifs <;> rfl

/-- The fixture contract as stored by `out_create₀` (net 997, fee 3). -/
def lc₀ : LockContract :=
  { sender := [1], receiver := [2], amount := 997, hashlock := [7]
    timelock := 100, withdrawn := false, refunded := false, preimage := none
    swap_id := [9], source_chain := 1, dest_chain := 2, dest_amount := 900
    fee := 3, relayer := none, sender_cross_address := none
    receiver_cross_address := none }

/-- Refund environment after expiry: caller is the sender `[1]`, block 150. -/
def env_rf₀ : Env := ⟨[1], 150, 0, fun _ _ => true⟩

/-- Refund environment before expiry: caller is the sender `[1]`, block 50. -/
def env_rf_early₀ : Env := ⟨[1], 50, 0, fun _ _ => true⟩

/-- Withdrawal environment after expiry: caller is the receiver `[2]`,
block 150. -/
def env_wd_late₀ : Env := ⟨[2], 150, 0, fun _ _ => true⟩

/-- C5: refund succeeds only when the current block is at or after the
contract's timelock, a too-early refund by the rightful sender failing with
`TimelockNotExpired`; withdraw succeeds only strictly before the timelock,
a late withdraw by an authorized caller failing with `TimelockExpired`.
Both failures leave the state unchanged. -/
theorem C5_timelock_timing :
    (∀ (env : Env) (st : FusionHtlc) (cid : Bytes),
      (refund env st cid).res = .ok () →
      ∃ c, alget st.contracts cid = some c ∧
        c.timelock ≤ env.block_number) ∧
    (∀ (hashFn : Bytes → Bytes) (env : Env) (st : FusionHtlc) (cid p : Bytes),
      (withdraw hashFn env st cid p).res = .ok () →
      ∃ c, alget st.contracts cid = some c ∧
        env.block_number < c.timelock) ∧
    (∀ (env : Env) (st : FusionHtlc) (cid : Bytes) (c : LockContract),
      alget st.contracts cid = some c → c.sender = env.caller →
      c.withdrawn = false → c.refunded = false →
      env.block_number < c.timelock →
      (refund env st cid).res = .err .TimelockNotExpired ∧
      (refund env st cid).st = st) ∧
    (∀ (hashFn : Bytes → Bytes) (env : Env) (st : FusionHtlc) (cid p : Bytes)
      (c : LockContract),
      alget st.contracts cid = some c →
      (c.receiver = env.caller ∨ c.relayer = some env.caller) →
      c.withdrawn = false → c.refunded = false →
      c.timelock ≤ env.block_number →
      (withdraw hashFn env st cid p).res = .err .TimelockExpired ∧
      (withdraw hashFn env st cid p).st = st) := by
  refine ⟨?_, ?_, ?_, ?_⟩
  · intro env st cid h
    cases hauth : validate_refund_auth st cid env.caller with
    | err e => rw [refund_eq_err hauth] at h; simp at h
    | ok c =>
      rw [refund_eq hauth] at h
      obtain ⟨hg, _, _, _⟩ := validate_refund_auth_ok hauth
      refine ⟨c, hg, ?_⟩
      by_cases ht : env.block_number < c.timelock
      · rw [if_pos ht] at h; simp at h
      · omega
  · intro hashFn env st cid p h
    cases hauth : validate_withdrawal_auth st cid env.caller with
    | err e => rw [withdraw_eq_err hauth] at h; simp at h
    | ok c =>
      rw [withdraw_eq hauth] at h
      obtain ⟨hg, _, _, _⟩ := validate_withdrawal_auth_ok hauth
      refine ⟨c, hg, ?_⟩
      by_cases ht : env.block_number ≥ c.timelock
      · rw [if_pos ht] at h; simp at h
      · omega
  · intro env st cid c hg hs hw hr ht
    have hauth : validate_refund_auth st cid env.caller = .ok c := by
      rw [validate_refund_auth_some hg]
      simp [hs, hw, hr]
    rw [refund_eq hauth, if_pos ht]
    exact ⟨rfl, rfl⟩
  · intro hashFn env st cid p c hg hcall hw hr ht
    have hauth : validate_withdrawal_auth st cid env.caller = .ok c := by
      rw [validate_withdrawal_auth_some hg]
      have hno : ¬(c.receiver ≠ env.caller ∧ c.relayer ≠ some env.caller) := by
        tauto
      rw [if_neg hno]
      simp [hw, hr]
    rw [withdraw_eq hauth, if_pos ht]
    exact ⟨rfl, rfl⟩

/-- Witness for C5 on the fixture contract (timelock 100): a successful
refund at block 150 and withdrawal at block 50, a refund at block 50
rejected with `TimelockNotExpired`, and a withdrawal at block 150 rejected
with `TimelockExpired`. -/
theorem C5_timelock_timing_witness :
    (∃ c, alget st₁.contracts [7] = some c ∧
      c.timelock ≤ env_rf₀.block_number) ∧
    (∃ c, alget st₁.contracts [7] = some c ∧
      env_wd₀.block_number < c.timelock) ∧
    ((refund env_rf_early₀ st₁ [7]).res = .err .TimelockNotExpired ∧
      (refund env_rf_early₀ st₁ [7]).st = st₁) ∧
    ((withdraw hashFn₀ env_wd_late₀ st₁ [7] [5]).res = .err .TimelockExpired ∧
      (withdraw hashFn₀ env_wd_late₀ st₁ [7] [5]).st = st₁) :=
  ⟨C5_timelock_timing.1 env_rf₀ st₁ [7] (by decide),
    C5_timelock_timing.2.1 hashFn₀ env_wd₀ st₁ [7] [5] (by decide),
    C5_timelock_timing.2.2.1 env_rf_early₀ st₁ [7] lc₀ (by decide) (by decide)
      (by decide) (by decide) (by decide),
    C5_timelock_timing.2.2.2 hashFn₀ env_wd_late₀ st₁ [7] [5] lc₀ (by decide)
      (by decide) (by decide) (by decide) (by decide)⟩

/-- C4: for a withdraw call that passes the authorization and timing checks,
a preimage whose hash differs from the stored hashlock is rejected with
`InvalidHashlock` and no state change and no transfer; given that the value
transfer succeeds, the call succeeds exactly when the hash matches, and on
success the stored contract has `withdrawn = true` and the preimage
recorded. -/
theorem C4_preimage_gate :
    ∀ (hashFn : Bytes → Bytes) (env : Env) (st : FusionHtlc) (cid p : Bytes)
      (c : LockContract),
      alget st.contracts cid = some c →
      (c.receiver = env.caller ∨ c.relayer = some env.caller) →
      c.withdrawn = false → c.refunded = false →
      env.block_number < c.timelock →
      (hashFn p ≠ c.hashlock →
        (withdraw hashFn env st cid p).res = .err .InvalidHashlock ∧
        (withdraw hashFn env st cid p).st = st ∧
        (withdraw hashFn env st cid p).transfers = []) ∧
      (env.transfer_ok c.receiver c.amount = true →
        ((withdraw hashFn env st cid p).res = .ok () ↔
          hashFn p = c.hashlock)) ∧
      (hashFn p = c.hashlock → env.transfer_ok c.receiver c.amount = true →
        (withdraw hashFn env st cid p).res = .ok () ∧
        alget (withdraw hashFn env st cid p).st.contracts cid =
          some { c with withdrawn := true, preimage := some p }) := by
  intro hashFn env st cid p c hg hcall hw hr ht
  have hauth : validate_withdrawal_auth st cid env.caller = .ok c := by
    rw [validate_withdrawal_auth_some hg]
    have hno : ¬(c.receiver ≠ env.caller ∧ c.relayer ≠ some env.caller) := by
      tauto
    rw [if_neg hno]
    simp [hw, hr]
  have hnotlate : ¬env.block_number ≥ c.timelock := by omega
  rw [withdraw_eq hauth, if_neg hnotlate]
  refine ⟨?_, ?_, ?_⟩
  · intro hbad
    rw [if_pos hbad]
    exact ⟨rfl, rfl, rfl⟩
  · intro htr
    by_cases hpi : hashFn p ≠ c.hashlock
    · rw [if_pos hpi]
      simp [hpi]
    · rw [if_neg hpi, htr]
      simp only [ne_eq, not_not] at hpi
      simp [hpi]
  · intro hpi htr
    have hok : ¬hashFn p ≠ c.hashlock := by simp [hpi]
    rw [if_neg hok, htr]
    exact ⟨rfl, by simpa using alget_alput_self st.contracts cid _⟩

/-- Witness for C4 on the fixture contract: the wrong preimage `[6]` is not
rejected there because `hashFn₀` is constant, so it uses a hash function
separating `[5]` from `[6]`; concretely it instantiates all three parts. -/
theorem C4_preimage_gate_witness :
    ((fun b => if b = [5] then ([7] : Bytes) else [0]) [6] ≠ lc₀.hashlock →
      (withdraw (fun b => if b = [5] then [7] else [0]) env_wd₀ st₁ [7]
        [6]).res = .err .InvalidHashlock ∧
      (withdraw (fun b => if b = [5] then [7] else [0]) env_wd₀ st₁ [7]
        [6]).st = st₁ ∧
      (withdraw (fun b => if b = [5] then [7] else [0]) env_wd₀ st₁ [7]
        [6]).transfers = []) ∧
    (env_wd₀.transfer_ok lc₀.receiver lc₀.amount = true →
      ((withdraw (fun b => if b = [5] then [7] else [0]) env_wd₀ st₁ [7]
        [6]).res = .ok () ↔
        (fun b => if b = [5] then ([7] : Bytes) else [0]) [6] =
          lc₀.hashlock)) ∧
    ((fun b => if b = [5] then ([7] : Bytes) else [0]) [6] = lc₀.hashlock →
      env_wd₀.transfer_ok lc₀.receiver lc₀.amount = true →
      (withdraw (fun b => if b = [5] then [7] else [0]) env_wd₀ st₁ [7]
        [6]).res = .ok () ∧
      alget (withdraw (fun b => if b = [5] then [7] else [0]) env_wd₀ st₁ [7]
        [6]).st.contracts [7] =
        some { lc₀ with withdrawn := true, preimage := some [6] }) :=
  C4_preimage_gate (fun b => if b = [5] then [7] else [0]) env_wd₀ st₁ [7]
    [6] lc₀ (by decide) (by decide) (by decide) (by decide) (by decide)

/-- Relayer registration call on the fixture contract by caller `[3]`. -/
def out_reg₀ : Outcome Unit :=
  register_relayer ⟨[3], 50, 0, fun _ _ => true⟩ st₁ [7]

/-- Fixture state whose contract has relayer `[3]` registered. -/
def stR₀ : FusionHtlc := (tx st₁ out_reg₀).st

/-- Withdrawal environment where the caller is the registered relayer `[3]`,
not the receiver. -/
def env_wdR₀ : Env := ⟨[3], 50, 0, fun _ _ => true⟩

/-- C6 counterexample: a withdraw by the registered relayer `[3]`, who is
not the stored receiver `[2]`, succeeds, so withdraw does not require the
caller to equal the receiver. -/
theorem C6_counterexample :
    (withdraw hashFn₀ env_wdR₀ stR₀ [7] [5]).res = .ok () ∧
    (∃ c, alget stR₀.contracts [7] = some c ∧
      c.receiver ≠ env_wdR₀.caller) := by
  decide

/-- C6 (amended): a successful withdraw requires the caller to be the
stored receiver or the registered relayer; any other caller is rejected
with `UnauthorizedWithdraw`, with no state change and no transfer. -/
theorem C6_withdraw_authorization :
    (∀ (hashFn : Bytes → Bytes) (env : Env) (st : FusionHtlc) (cid p : Bytes),
      (withdraw hashFn env st cid p).res = .ok () →
      ∃ c, alget st.contracts cid = some c ∧
        (c.receiver = env.caller ∨ c.relayer = some env.caller)) ∧
    (∀ (hashFn : Bytes → Bytes) (env : Env) (st : FusionHtlc) (cid p : Bytes)
      (c : LockContract),
      alget st.contracts cid = some c →
      c.receiver ≠ env.caller → c.relayer ≠ some env.caller →
      (withdraw hashFn env st cid p).res = .err .UnauthorizedWithdraw ∧
      (withdraw hashFn env st cid p).st = st ∧
      (withdraw hashFn env st cid p).transfers = []) := by
  constructor
  · intro hashFn env st cid p h
    cases hauth : validate_withdrawal_auth st cid env.caller with
    | err e => rw [withdraw_eq_err hauth] at h; simp at h
    | ok c =>
      obtain ⟨hg, hcall, _, _⟩ := validate_withdrawal_auth_ok hauth
      exact ⟨c, hg, hcall⟩
  · intro hashFn env st cid p c hg h1 h2
    have hauth : validate_withdrawal_auth st cid env.caller =
        .err .UnauthorizedWithdraw := by
      rw [validate_withdrawal_auth_some hg, if_pos ⟨h1, h2⟩]
    rw [withdraw_eq_err hauth]
    exact ⟨rfl, rfl, rfl⟩

/-- Witness for C6 (amended): the fixture receiver withdrawal succeeds and
is indeed authorized, and a stranger `[4]` is rejected with
`UnauthorizedWithdraw` without state change. -/
theorem C6_withdraw_authorization_witness :
    (∃ c, alget st₁.contracts [7] = some c ∧
      (c.receiver = env_wd₀.caller ∨ c.relayer = some env_wd₀.caller)) ∧
    ((withdraw hashFn₀ (⟨[4], 50, 0, fun _ _ => true⟩ : Env) st₁ [7]
      [5]).res = .err .UnauthorizedWithdraw ∧
     (withdraw hashFn₀ (⟨[4], 50, 0, fun _ _ => true⟩ : Env) st₁ [7]
      [5]).st = st₁ ∧
     (withdraw hashFn₀ (⟨[4], 50, 0, fun _ _ => true⟩ : Env) st₁ [7]
      [5]).transfers = []) :=
  ⟨C6_withdraw_authorization.1 hashFn₀ env_wd₀ st₁ [7] [5] (by decide),
    C6_withdraw_authorization.2 hashFn₀ ⟨[4], 50, 0, fun _ _ => true⟩ st₁ [7]
      [5] lc₀ (by decide) (by decide) (by decide)⟩

/-- C9: every successful withdraw executes exactly one value transfer, of
the contract's stored `amount`, to the contract's stored `receiver` —
whoever the (authorized) caller was. -/
theorem C9_transfer_destination :
    ∀ (hashFn : Bytes → Bytes) (env : Env) (st : FusionHtlc) (cid p : Bytes),
      (withdraw hashFn env st cid p).res = .ok () →
      ∃ c, alget st.contracts cid = some c ∧
        (withdraw hashFn env st cid p).transfers =
          [(c.receiver, c.amount)] := by
  intro hashFn env st cid p h
  cases hauth : validate_withdrawal_auth st cid env.caller with
  | err e => rw [withdraw_eq_err hauth] at h; simp at h
  | ok c =>
    obtain ⟨hg, _, _, _⟩ := validate_withdrawal_auth_ok hauth
    refine ⟨c, hg, ?_⟩
    rw [withdraw_eq hauth] at h ⊢
    split_ifs at h ⊢ with h1 h2 h3
    all_goals first | rfl | simp at h

/-- Witness for C9: both the receiver-called and the relayer-called fixture
withdrawals transfer exactly 997 units to the receiver `[2]`. -/
theorem C9_transfer_destination_witness :
    (∃ c, alget st₁.contracts [7] = some c ∧
      (withdraw hashFn₀ env_wd₀ st₁ [7] [5]).transfers =
        [(c.receiver, c.amount)]) ∧
    (∃ c, alget stR₀.contracts [7] = some c ∧
      (withdraw hashFn₀ env_wdR₀ stR₀ [7] [5]).transfers =
        [(c.receiver, c.amount)]) :=
  ⟨C9_transfer_destination hashFn₀ env_wd₀ st₁ [7] [5] (by decide),
    C9_transfer_destination hashFn₀ env_wdR₀ stR₀ [7] [5] (by decide)⟩

/-- C2: when the value transfer of a withdraw or refund fails, the whole
dispatched message fails with `TransferFailed` and no state change persists:
under the ink! dispatcher (`tx`), which rolls back a message that returns
`Err`, the post state equals the pre state, so the contract record
(`withdrawn`, `refunded`, `preimage` included) is untouched. -/
theorem C2_atomic_transfer_failure :
    (∀ (hashFn : Bytes → Bytes) (env : Env) (st : FusionHtlc) (cid p : Bytes)
      (c : LockContract),
      alget st.contracts cid = some c →
      (c.receiver = env.caller ∨ c.relayer = some env.caller) →
      c.withdrawn = false → c.refunded = false →
      env.block_number < c.timelock → hashFn p = c.hashlock →
      env.transfer_ok c.receiver c.amount = false →
      (withdraw hashFn env st cid p).res = .err .TransferFailed ∧
      tx st (withdraw hashFn env st cid p) = ⟨st, [], .err .TransferFailed⟩ ∧
      alget (tx st (withdraw hashFn env st cid p)).st.contracts cid =
        some c) ∧
    (∀ (env : Env) (st : FusionHtlc) (cid : Bytes) (c : LockContract),
      alget st.contracts cid = some c →
      c.sender = env.caller → c.withdrawn = false → c.refunded = false →
      c.timelock ≤ env.block_number →
      env.transfer_ok c.sender c.amount = false →
      (refund env st cid).res = .err .TransferFailed ∧
      tx st (refund env st cid) = ⟨st, [], .err .TransferFailed⟩ ∧
      alget (tx st (refund env st cid)).st.contracts cid = some c) := by
  constructor
  · intro hashFn env st cid p c hg hcall hw hr ht hpi htr
    have hauth : validate_withdrawal_auth st cid env.caller = .ok c := by
      rw [validate_withdrawal_auth_some hg]
      have hno : ¬(c.receiver ≠ env.caller ∧ c.relayer ≠ some env.caller) := by
        tauto
      rw [if_neg hno]
      simp [hw, hr]
    have hnotlate : ¬env.block_number ≥ c.timelock := by omega
    have hok : ¬hashFn p ≠ c.hashlock := by simp [hpi]
    rw [withdraw_eq hauth, if_neg hnotlate, if_neg hok, htr]
    exact ⟨rfl, rfl, by simpa [tx] using hg⟩
  · intro env st cid c hg hs hw hr ht htr
    have hauth : validate_refund_auth st cid env.caller = .ok c := by
      rw [validate_refund_auth_some hg]
      simp [hs, hw, hr]
    have hnotearly : ¬env.block_number < c.timelock := by omega
    rw [refund_eq hauth, if_neg hnotearly, htr]
    exact ⟨rfl, rfl, by simpa [tx] using hg⟩

/-- Environment in which every native value transfer fails. -/
def env_wd_notr₀ : Env := ⟨[2], 50, 0, fun _ _ => false⟩

/-- Environment in which the sender refunds after expiry but every native
value transfer fails. -/
def env_rf_notr₀ : Env := ⟨[1], 150, 0, fun _ _ => false⟩

/-- Witness for C2: on the fixture contract, a withdraw with the correct
preimage and a refund after expiry both fail with `TransferFailed` when the
transfer primitive fails, leaving the dispatched state identical. -/
theorem C2_atomic_transfer_failure_witness :
    ((withdraw hashFn₀ env_wd_notr₀ st₁ [7] [5]).res =
      .err .TransferFailed ∧
      tx st₁ (withdraw hashFn₀ env_wd_notr₀ st₁ [7] [5]) =
        ⟨st₁, [], .err .TransferFailed⟩ ∧
      alget (tx st₁ (withdraw hashFn₀ env_wd_notr₀ st₁ [7]
        [5])).st.contracts [7] = some lc₀) ∧
    ((refund env_rf_notr₀ st₁ [7]).res = .err .TransferFailed ∧
      tx st₁ (refund env_rf_notr₀ st₁ [7]) =
        ⟨st₁, [], .err .TransferFailed⟩ ∧
      alget (tx st₁ (refund env_rf_notr₀ st₁ [7])).st.contracts [7] =
        some lc₀) :=
  ⟨C2_atomic_transfer_failure.1 hashFn₀ env_wd_notr₀ st₁ [7] [5] lc₀
      (by decide) (by decide) (by decide) (by decide) (by decide) (by decide)
      (by decide),
    C2_atomic_transfer_failure.2 env_rf_notr₀ st₁ [7] lc₀ (by decide)
      (by decide) (by decide) (by decide) (by decide) (by decide)⟩

/-- C7: the protocol fee sweep is admin-only, rejects a zero accumulator,
transfers the whole accumulator to the admin on success, and on transfer
failure returns `TransferFailed` with the accumulator restored to its
pre-call value, so accumulated fees are never lost. -/
theorem C7_fee_sweep :
    (∀ (env : Env) (st : FusionHtlc), env.caller ≠ st.admin →
      (withdraw_protocol_fees env st).res = .err .Unauthorized ∧
      (withdraw_protocol_fees env st).st = st) ∧
    (∀ (env : Env) (st : FusionHtlc), env.caller = st.admin →
      st.protocol_fees = 0 →
      (withdraw_protocol_fees env st).res = .err .InsufficientFunds ∧
      (withdraw_protocol_fees env st).st = st) ∧
    (∀ (env : Env) (st : FusionHtlc), env.caller = st.admin →
      st.protocol_fees ≠ 0 →
      env.transfer_ok st.admin st.protocol_fees = true →
      (withdraw_protocol_fees env st).res = .ok () ∧
      (withdraw_protocol_fees env st).st = { st with protocol_fees := 0 } ∧
      (withdraw_protocol_fees env st).transfers =
        [(st.admin, st.protocol_fees)]) ∧
    (∀ (env : Env) (st : FusionHtlc), env.caller = st.admin →
      st.protocol_fees ≠ 0 →
      env.transfer_ok st.admin st.protocol_fees = false →
      (withdraw_protocol_fees env st).res = .err .TransferFailed ∧
      (withdraw_protocol_fees env st).st = st) := by
  refine ⟨?_, ?_, ?_, ?_⟩
  · intro env st h
    unfold withdraw_protocol_fees ensure_admin
    rw [if_pos h]
    exact ⟨rfl, rfl⟩
  · intro env st hadm h0
    unfold withdraw_protocol_fees ensure_admin
    rw [if_neg (by simp [hadm])]
    dsimp only
    rw [if_pos h0]
    exact ⟨rfl, rfl⟩
  · intro env st hadm h0 htr
    unfold withdraw_protocol_fees ensure_admin execute_transfer
    rw [if_neg (by simp [hadm])]
    dsimp only
    rw [if_neg h0, htr]
    exact ⟨rfl, rfl, rfl⟩
  · intro env st hadm h0 htr
    unfold withdraw_protocol_fees ensure_admin execute_transfer
    rw [if_neg (by simp [hadm])]
    dsimp only
    rw [if_neg h0, htr]
    exact ⟨rfl, rfl⟩

/-- Witness for C7: on the fixture state (accumulated fees 3, admin `[1]`):
a stranger is rejected, a zero accumulator is rejected, a successful sweep
zeroes the accumulator and transfers 3 to `[1]`, and a failed transfer
restores the state. -/
theorem C7_fee_sweep_witness :
    ((withdraw_protocol_fees (⟨[9], 0, 0, fun _ _ => true⟩ : Env) st₁).res =
      .err .Unauthorized ∧
     (withdraw_protocol_fees (⟨[9], 0, 0, fun _ _ => true⟩ : Env) st₁).st =
      st₁) ∧
    ((withdraw_protocol_fees (⟨[1], 0, 0, fun _ _ => true⟩ : Env) st₀).res =
      .err .InsufficientFunds ∧
     (withdraw_protocol_fees (⟨[1], 0, 0, fun _ _ => true⟩ : Env) st₀).st =
      st₀) ∧
    ((withdraw_protocol_fees (⟨[1], 0, 0, fun _ _ => true⟩ : Env) st₁).res =
      .ok () ∧
     (withdraw_protocol_fees (⟨[1], 0, 0, fun _ _ => true⟩ : Env) st₁).st =
      { st₁ with protocol_fees := 0 } ∧
     (withdraw_protocol_fees (⟨[1], 0, 0, fun _ _ => true⟩ : Env)
        st₁).transfers = [([1], 3)]) ∧
    ((withdraw_protocol_fees (⟨[1], 0, 0, fun _ _ => false⟩ : Env) st₁).res =
      .err .TransferFailed ∧
     (withdraw_protocol_fees (⟨[1], 0, 0, fun _ _ => false⟩ : Env) st₁).st =
      st₁) := by
  refine ⟨C7_fee_sweep.1 ⟨[9], 0, 0, fun _ _ => true⟩ st₁ (by decide),
    C7_fee_sweep.2.1 ⟨[1], 0, 0, fun _ _ => true⟩ st₀ (by decide) (by decide),
    ?_,
    C7_fee_sweep.2.2.2 ⟨[1], 0, 0, fun _ _ => false⟩ st₁ (by decide)
      (by decide) (by decide)⟩
  have h := C7_fee_sweep.2.2.1 ⟨[1], 0, 0, fun _ _ => true⟩ st₁ (by decide)
    (by decide) (by decide)
  refine ⟨h.1, h.2.1, ?_⟩
  rw [h.2.2]
  decide

/-- C10: `register_relayer` needs no authorization: for any caller it
succeeds exactly when the contract exists and has no relayer yet, recording
the caller as relayer; a second registration fails with `RelayerAlreadySet`
leaving the state unchanged, and a missing contract yields
`ContractNotFound`. -/
theorem C10_register_relayer :
    (∀ (env : Env) (st : FusionHtlc) (cid : Bytes),
      alget st.contracts cid = none →
      (register_relayer env st cid).res = .err .ContractNotFound ∧
      (register_relayer env st cid).st = st) ∧
    (∀ (env : Env) (st : FusionHtlc) (cid : Bytes) (c : LockContract),
      alget st.contracts cid = some c → c.relayer = none →
      (register_relayer env st cid).res = .ok () ∧
      (register_relayer env st cid).st =
        { st with contracts := alput st.contracts cid ({ c with relayer := some env.caller }) }) ∧
    (∀ (env : Env) (st : FusionHtlc) (cid : Bytes) (c : LockContract)
      (r : Address),
      alget st.contracts cid = some c → c.relayer = some r →
      (register_relayer env st cid).res = .err .RelayerAlreadySet ∧
      (register_relayer env st cid).st = st) := by
  refine ⟨?_, ?_, ?_⟩
  · intro env st cid hg
    unfold register_relayer get_contract_or_error
    rw [hg]
    exact ⟨rfl, rfl⟩
  · intro env st cid c hg hrel
    unfold register_relayer get_contract_or_error
    rw [hg]
    dsimp only
    rw [hrel]
    exact ⟨rfl, rfl⟩
  · intro env st cid c r hg hrel
    unfold register_relayer get_contract_or_error
    rw [hg]
    dsimp only
    rw [hrel]
    exact ⟨rfl, rfl⟩

/-- Witness for C10: on the fixture, a missing id `[8]` is rejected, the
first registration by `[3]` succeeds and stores `[3]`, and a second
registration by `[4]` is rejected with `RelayerAlreadySet`. -/
theorem C10_register_relayer_witness :
    ((register_relayer (⟨[3], 50, 0, fun _ _ => true⟩ : Env) st₁ [8]).res =
      .err .ContractNotFound ∧
     (register_relayer (⟨[3], 50, 0, fun _ _ => true⟩ : Env) st₁ [8]).st =
      st₁) ∧
    ((register_relayer (⟨[3], 50, 0, fun _ _ => true⟩ : Env) st₁ [7]).res =
      .ok () ∧
     (register_relayer (⟨[3], 50, 0, fun _ _ => true⟩ : Env) st₁ [7]).st =
      { st₁ with contracts := alput st₁.contracts [7] ({ lc₀ with relayer := some [3] }) }) ∧
    ((register_relayer (⟨[4], 60, 0, fun _ _ => true⟩ : Env) stR₀ [7]).res =
      .err .RelayerAlreadySet ∧
     (register_relayer (⟨[4], 60, 0, fun _ _ => true⟩ : Env) stR₀ [7]).st =
      stR₀) :=
  ⟨C10_register_relayer.1 ⟨[3], 50, 0, fun _ _ => true⟩ st₁ [8] (by decide),
    C10_register_relayer.2.1 ⟨[3], 50, 0, fun _ _ => true⟩ st₁ [7] lc₀
      (by decide) (by decide),
    C10_register_relayer.2.2 ⟨[4], 60, 0, fun _ _ => true⟩ stR₀ [7]
      ({ lc₀ with relayer := some [3] }) [3] (by decide) (by decide)⟩

/-! Machinery for the reachability invariant of C1: no stored contract ever
has both terminal flags set. -/

/-- Invariant: every stored contract has at least one terminal flag clear. -/
def NoBothFlags (st : FusionHtlc) : Prop :=
  ∀ cid c, alget st.contracts cid = some c →
    c.withdrawn = false ∨ c.refunded = false

theorem tx_NoBoth {α : Type} {st : FusionHtlc} (h : NoBothFlags st)
    (o : Outcome α) (ho : NoBothFlags o.st) : NoBothFlags (tx st o).st := by
  unfold tx
  cases hr : o.res with
  | err e => exact h
  | ok a => exact ho

theorem map_address_contracts (env : Env) (st : FusionHtlc)
    (ca : CrossChainAddress) :
    (map_address env st ca).st.contracts = st.contracts := rfl

theorem update_admin_contracts (env : Env) (st : FusionHtlc) (a : Address) :
    (update_admin env st a).st.contracts = st.contracts := by
  unfold update_admin
  cases ensure_admin st env <;> rfl

theorem update_protocol_fee_contracts (env : Env) (st : FusionHtlc)
    (f : Nat) : (update_protocol_fee env st f).st.contracts = st.contracts := by
  unfold update_protocol_fee
  cases ensure_admin st env with
  | err e => rfl
  | ok u =>
    dsimp only
    split_ifs <;> rfl

theorem withdraw_protocol_fees_contracts (env : Env) (st : FusionHtlc) :
    (withdraw_protocol_fees env st).st.contracts = st.contracts := by
  unfold withdraw_protocol_fees
  cases ensure_admin st env with
  | err e => rfl
  | ok u =>
    dsimp only
    split_ifs with h0
    · rfl
    · unfold execute_transfer
      split_ifs <;> rfl

/-- The contract store after `new_contract` is either unchanged or extends
the old store with one record whose terminal flags are both clear. -/
theorem new_contract_contracts_cases (hashFn : Bytes → Bytes) (env : Env)
    (st : FusionHtlc) (r : Address) (hl : Bytes) (tl : Nat) (sw : Bytes)
    (sc dc da : Nat) (sca rca : Option Bytes) :
    (new_contract hashFn env st r hl tl sw sc dc da sca rca).st.contracts =
      st.contracts ∨
    ∃ cid nc, nc.withdrawn = false ∧ nc.refunded = false ∧
      (new_contract hashFn env st r hl tl sw sc dc da sca rca).st.contracts =
        alput st.contracts cid nc := by
  simp only [new_contract, generate_contract_id]
  cases hgtb : get_transferred_balance env with
  | err e => left; rfl
  | ok amount =>
  dsimp only
  cases hvp : validate_contract_params st env tl sc dc with
  | err e => left; rfl
  | ok u =>
  dsimp only
  cases hcf : calculate_fees st amount with
  | err e => left; rfl
  | ok nf =>
  obtain ⟨net, fee⟩ := nf
  dsimp only
  split
  · left; rfl
  · cases hadd : u128_checked_add st.protocol_fees fee with
    | none => right; exact ⟨_, _, rfl, rfl, rfl⟩
    | some fees' => right; exact ⟨_, _, rfl, rfl, rfl⟩

/-- The contract store after `register_relayer` is either unchanged or
updates one existing record, changing only its `relayer` field. -/
theorem register_relayer_contracts_cases (env : Env) (st : FusionHtlc)
    (cid : Bytes) :
    (register_relayer env st cid).st.contracts = st.contracts ∨
    ∃ c, alget st.contracts cid = some c ∧
      (register_relayer env st cid).st.contracts =
        alput st.contracts cid ({ c with relayer := some env.caller }) := by
  unfold register_relayer get_contract_or_error
  cases hg : alget st.contracts cid with
  | none => left; rfl
  | some c =>
  dsimp only
  cases hrel : c.relayer with
  | some r => left; rfl
  | none => right; exact ⟨c, rfl, rfl⟩

/-- One dispatched message preserves the terminal-flag invariant. -/
theorem stepM_NoBoth (hashFn : Bytes → Bytes) (st : FusionHtlc) (m : Msg)
    (h : NoBothFlags st) : NoBothFlags (stepM hashFn st m) := by
  cases m with
  | map_address env ca =>
    exact tx_NoBoth h _ (fun cid c hc => h cid c hc)
  | new_contract env r hl tl sw sc dc da sca rca =>
    refine tx_NoBoth h _ ?_
    rcases new_contract_contracts_cases hashFn env st r hl tl sw sc dc da sca
        rca with he | ⟨cid', nc, hw, hr, he⟩
    · intro cid c hc
      rw [he] at hc
      exact h cid c hc
    · intro cid c hc
      rw [he] at hc
      rcases alget_alput_cases _ _ _ _ _ hc with ⟨-, rfl⟩ | hold
      · left; exact hw
      · exact h cid c hold
  | register_relayer env cid' =>
    refine tx_NoBoth h _ ?_
    rcases register_relayer_contracts_cases env st cid' with
      he | ⟨c₀, hg, he⟩
    · intro cid c hc
      rw [he] at hc
      exact h cid c hc
    · intro cid c hc
      rw [he] at hc
      rcases alget_alput_cases _ _ _ _ _ hc with ⟨-, rfl⟩ | hold
      · exact h cid' c₀ hg
      · exact h cid c hold
  | withdraw env cid' p =>
    refine tx_NoBoth h _ ?_
    cases hauth : validate_withdrawal_auth st cid' env.caller with
    | err e =>
      rw [withdraw_eq_err hauth]
      intro cid c hc
      exact h cid c hc
    | ok c₀ =>
      obtain ⟨hg, -, hw0, hr0⟩ := validate_withdrawal_auth_ok hauth
      rw [withdraw_eq hauth]
      split_ifs
      all_goals intro cid c hc
      all_goals first
        | exact h cid c hc
        | (rcases alget_alput_cases _ _ _ _ _ hc with ⟨-, rfl⟩ | hold
           exacts [Or.inr hr0, h cid c hold])
  | refund env cid' =>
    refine tx_NoBoth h _ ?_
    cases hauth : validate_refund_auth st cid' env.caller with
    | err e =>
      rw [refund_eq_err hauth]
      intro cid c hc
      exact h cid c hc
    | ok c₀ =>
      obtain ⟨hg, -, hw0, hr0⟩ := validate_refund_auth_ok hauth
      rw [refund_eq hauth]
      split_ifs
      all_goals intro cid c hc
      all_goals first
        | exact h cid c hc
        | (rcases alget_alput_cases _ _ _ _ _ hc with ⟨-, rfl⟩ | hold
           exacts [Or.inl hw0, h cid c hold])
  | update_admin env a =>
    refine tx_NoBoth h _ ?_
    intro cid c hc
    rw [update_admin_contracts] at hc
    exact h cid c hc
  | update_protocol_fee env f =>
    refine tx_NoBoth h _ ?_
    intro cid c hc
    rw [update_protocol_fee_contracts] at hc
    exact h cid c hc
  | withdraw_protocol_fees env =>
    refine tx_NoBoth h _ ?_
    intro cid c hc
    rw [withdraw_protocol_fees_contracts] at hc
    exact h cid c hc

/-- Every reachable state satisfies the terminal-flag invariant. -/
theorem reach_NoBoth {hashFn : Bytes → Bytes} {st : FusionHtlc}
    (h : reach hashFn st) : NoBothFlags st := by
  induction h with
  | init admin =>
    intro cid c hc
    simp [FusionHtlc.new, alget] at hc
  | step m hr ih => exact stepM_NoBoth _ _ m ih

/-- C1 counterexample to the claim as stated: on a state whose contract is
already withdrawn, a withdraw attempt by the stranger `[4]` fails with
`UnauthorizedWithdraw`, not with the already-processed error, so "any later
withdraw or refund attempt fails with the already-processed error" is
false. -/
theorem C1_counterexample :
    (∃ c, alget st₂.contracts [7] = some c ∧ c.withdrawn = true) ∧
    (withdraw hashFn₀ (⟨[4], 60, 0, fun _ _ => true⟩ : Env) st₂ [7]
      [5]).res = .err .UnauthorizedWithdraw ∧
    Error.UnauthorizedWithdraw ≠ Error.AlreadyProcessed := by
  decide

/-- C1 (amended): in every reachable state no stored contract has both
terminal flags set; once either flag is set, every later withdraw or refund
attempt on that contract fails, changes no state and executes no transfer,
and a caller that passes the authorization identity check receives the
already-processed error `AlreadyProcessed`. -/
theorem C1_terminal_flags :
    (∀ (hashFn : Bytes → Bytes) (st : FusionHtlc), reach hashFn st →
      ∀ (cid : Bytes) (c : LockContract), alget st.contracts cid = some c →
        ¬(c.withdrawn = true ∧ c.refunded = true)) ∧
    (∀ (hashFn : Bytes → Bytes) (env : Env) (st : FusionHtlc) (cid p : Bytes)
      (c : LockContract), alget st.contracts cid = some c →
      (c.withdrawn = true ∨ c.refunded = true) →
      (∃ e, (withdraw hashFn env st cid p).res = .err e) ∧
      (withdraw hashFn env st cid p).st = st ∧
      (withdraw hashFn env st cid p).transfers = [] ∧
      ((c.receiver = env.caller ∨ c.relayer = some env.caller) →
        (withdraw hashFn env st cid p).res = .err .AlreadyProcessed)) ∧
    (∀ (env : Env) (st : FusionHtlc) (cid : Bytes) (c : LockContract),
      alget st.contracts cid = some c →
      (c.withdrawn = true ∨ c.refunded = true) →
      (∃ e, (refund env st cid).res = .err e) ∧
      (refund env st cid).st = st ∧
      (refund env st cid).transfers = [] ∧
      (c.sender = env.caller →
        (refund env st cid).res = .err .AlreadyProcessed)) := by
  refine ⟨?_, ?_, ?_⟩
  · intro hashFn st hr cid c hc hboth
    rcases reach_NoBoth hr cid c hc with hh | hh <;>
      simp [hboth.1, hboth.2] at hh
  · intro hashFn env st cid p c hg hflag
    have hbool : (c.withdrawn || c.refunded) = true := by
      rcases hflag with hf | hf <;> simp [hf]
    by_cases hcall : c.receiver = env.caller ∨ c.relayer = some env.caller
    · have hauth : validate_withdrawal_auth st cid env.caller =
          .err .AlreadyProcessed := by
        rw [validate_withdrawal_auth_some hg]
        rw [if_neg (by tauto), if_pos hbool]
      rw [withdraw_eq_err hauth]
      exact ⟨⟨_, rfl⟩, rfl, rfl, fun _ => rfl⟩
    · push_neg at hcall
      have hauth : validate_withdrawal_auth st cid env.caller =
          .err .UnauthorizedWithdraw := by
        rw [validate_withdrawal_auth_some hg, if_pos hcall]
      rw [withdraw_eq_err hauth]
      refine ⟨⟨_, rfl⟩, rfl, rfl, fun hc => absurd hc (by tauto)⟩
  · intro env st cid c hg hflag
    have hbool : (c.withdrawn || c.refunded) = true := by
      rcases hflag with hf | hf <;> simp [hf]
    by_cases hcall : c.sender = env.caller
    · have hauth : validate_refund_auth st cid env.caller =
          .err .AlreadyProcessed := by
        rw [validate_refund_auth_some hg]
        rw [if_neg (by simp [hcall]), if_pos hbool]
      rw [refund_eq_err hauth]
      exact ⟨⟨_, rfl⟩, rfl, rfl, fun _ => rfl⟩
    · have hauth : validate_refund_auth st cid env.caller =
          .err .UnauthorizedRefund := by
        rw [validate_refund_auth_some hg, if_pos hcall]
      rw [refund_eq_err hauth]
      exact ⟨⟨_, rfl⟩, rfl, rfl, fun hc => absurd hc hcall⟩

/-- Witness for C1: the state `st₂` (create then withdraw) is reachable, its
contract has `withdrawn = true` and `refunded = false`, and both a repeated
withdraw by the receiver and a refund by the sender fail with
`AlreadyProcessed` without changing state. -/
theorem C1_terminal_flags_witness :
    ¬(({ lc₀ with withdrawn := true, preimage := some [5] }).withdrawn =
        true ∧
      ({ lc₀ with withdrawn := true, preimage := some [5] }).refunded =
        true) ∧
    ((withdraw hashFn₀ env_wd₀ st₂ [7] [5]).res = .err .AlreadyProcessed ∧
      (withdraw hashFn₀ env_wd₀ st₂ [7] [5]).st = st₂) ∧
    ((refund env_rf₀ st₂ [7]).res = .err .AlreadyProcessed ∧
      (refund env_rf₀ st₂ [7]).st = st₂) := by
  have hreach : reach hashFn₀ st₂ :=
    reach.step (Msg.withdraw env_wd₀ [7] [5])
      (reach.step (Msg.new_contract env_new₀ [2] [7] 100 [9] 1 2 900 none
        none) (reach.init [1]))
  have h2 := C1_terminal_flags.2.1 hashFn₀ env_wd₀ st₂ [7] [5]
    ({ lc₀ with withdrawn := true, preimage := some [5] }) (by decide)
    (by decide)
  have h3 := C1_terminal_flags.2.2 env_rf₀ st₂ [7]
    ({ lc₀ with withdrawn := true, preimage := some [5] }) (by decide)
    (by decide)
  exact ⟨C1_terminal_flags.1 hashFn₀ st₂ hreach [7]
      ({ lc₀ with withdrawn := true, preimage := some [5] }) (by decide),
    ⟨h2.2.2.2 (by decide), h2.2.1⟩, ⟨h3.2.2.2 (by decide), h3.2.1⟩⟩

/-! Order/fill engine for claim C8.  The partial-fill order engine the spec
describes (sections 3 to 4.8) has no implementation under `src/`; the
definitions below are therefore modelled from the spec. -/

/-- Modelled from the spec: the error taxonomy of section 7 for the missing
order/fill engine. -/
inductive EngineError where
  | NotFound
  | AlreadyExists
  | Unauthorized
  | InvalidParameter
  | StateConflict
  | TimingViolation
  | SecretMismatch
  | ArithmeticOverflow
  | TransferFailure
deriving DecidableEq, Repr

/-- Modelled from the spec: result of one engine operation. -/
inductive EResult (α : Type) where
  | ok : α → EResult α
  | err : EngineError → EResult α
deriving DecidableEq, Repr

/-- Modelled from the spec: the `Order` record (section 3) of the missing
engine, restricted to the fields the fill-accounting claim touches
(maker, amounts, hashlock, timelock, cancellation, fill policy and fill
counters); `allow_split_fills` renders the spec's flag allowing an order to
be consumed by several independent fills.  Chain ids, the destination rate
and the fee field are orthogonal to fill accounting and omitted. -/
structure Order where
  maker : Address
  total_amount : Nat
  filled_amount : Nat
  min_fill_amount : Nat
  hashlock : Bytes
  timelock : Nat
  cancelled : Bool
  allow_split_fills : Bool
  max_fills : Nat
  current_fills : Nat
deriving DecidableEq, Repr

/-- Modelled from the spec: the `Fill` record (section 3) of the missing
engine (`escrow_id` and `created_at` are informational and omitted). -/
structure Fill where
  order_id : Nat
  taker : Address
  fill_amount : Nat
  withdrawn : Bool
  refunded : Bool
  preimage : Option Bytes
deriving DecidableEq, Repr

/-- Modelled from the spec: the order store, fill store and protocol
singleton of the missing engine.  Identifiers are the monotonic counters
directly: the spec derives ids by hashing parameters together with a
counter and says the only correctness requirement is that ids never
repeat (sections 4.1 and 9). -/
structure EngineState where
  orders : List (Nat × Order)
  fills : List (Nat × Fill)
  order_counter : Nat
  fill_counter : Nat
  min_timelock : Nat
  max_timelock : Nat
deriving DecidableEq, Repr

/-- Modelled from the spec: a freshly deployed engine with empty stores. -/
def EngineState.init (minT maxT : Nat) : EngineState :=
  { orders := [], fills := [], order_counter := 0, fill_counter := 0
    min_timelock := minT, max_timelock := maxT }

/-- Modelled from the spec: `create_order` (section 4.4) of the missing
engine — timelock-bound, fill-amount and deposit validation, then a fresh
order with `filled_amount = 0`, `current_fills = 0`, `cancelled = false`
(the fee computation is orthogonal to fill accounting and omitted:
`total_amount` is the net escrowed amount). -/
def create_order (env : Env) (st : EngineState) (total min_fill : Nat)
    (hashlock : Bytes) (timelock : Nat) (allow_split : Bool)
    (max_fills : Nat) : EngineState × EResult Nat :=
  if timelock ≤ env.block_number then (st, .err .InvalidParameter)
  else if timelock - env.block_number < st.min_timelock then
    (st, .err .InvalidParameter)
  else if st.max_timelock < timelock - env.block_number then
    (st, .err .InvalidParameter)
  else if min_fill = 0 then (st, .err .InvalidParameter)
  else if total < min_fill then (st, .err .InvalidParameter)
  else if max_fills = 0 then (st, .err .InvalidParameter)
  else if env.transferred_value < total then (st, .err .InvalidParameter)
  else
    let oid := st.order_counter + 1
    if (alget st.orders oid).isSome then (st, .err .AlreadyExists)
    else
      let o : Order := ⟨env.caller, total, 0, min_fill, hashlock, timelock, false, allow_split, max_fills, 0⟩
      ({ st with orders := alput st.orders oid o, order_counter := oid }, .ok oid)

/-- Modelled from the spec: `fill` (sections 4.3 and 4.5) of the missing
engine — eligibility checks, clamping of an over-large request to the
remaining amount, the final-dust rule, the whole-remainder rule when split
fills are not allowed, then a fresh fill record with both terminal flags
clear and the order's `filled_amount`/`current_fills` incremented. -/
def fill_order (env : Env) (st : EngineState) (oid requested : Nat) :
    EngineState × EResult Nat :=
  match alget st.orders oid with
  | none => (st, .err .NotFound)
  | some o =>
    if o.cancelled then (st, .err .StateConflict)
    else if o.timelock ≤ env.block_number then (st, .err .TimingViolation)
    else if o.total_amount ≤ o.filled_amount then (st, .err .StateConflict)
    else if o.max_fills ≤ o.current_fills then (st, .err .StateConflict)
    else if requested = 0 then (st, .err .InvalidParameter)
    else
      let remaining := o.total_amount - o.filled_amount
      let actual := min requested remaining
      if actual < o.min_fill_amount ∧ o.min_fill_amount ≤ remaining then
        (st, .err .InvalidParameter)
      else if o.allow_split_fills = false ∧ actual ≠ remaining then
        (st, .err .StateConflict)
      else
        let fid := st.fill_counter + 1
        if (alget st.fills fid).isSome then (st, .err .AlreadyExists)
        else
          let f : Fill := ⟨oid, env.caller, actual, false, false, none⟩
          let o' : Order := { o with filled_amount := o.filled_amount + actual, current_fills := o.current_fills + 1 }
          ({ st with fills := alput st.fills fid f, orders := alput st.orders oid o', fill_counter := fid }, .ok fid)

/-- Modelled from the spec: `withdraw` (section 4.6) of the missing engine —
taker authorization, terminal flags, timing, secret check, then the value
transfer; following the all-or-nothing requirement of section 5, the fill
is marked withdrawn only when the transfer succeeds. -/
def withdraw_fill (hashFn : Bytes → Bytes) (env : Env) (st : EngineState)
    (fid : Nat) (preimage : Bytes) : EngineState × EResult Unit :=
  match alget st.fills fid with
  | none => (st, .err .NotFound)
  | some f =>
    match alget st.orders f.order_id with
    | none => (st, .err .NotFound)
    | some o =>
      if f.taker ≠ env.caller then (st, .err .Unauthorized)
      else if f.withdrawn || f.refunded then (st, .err .StateConflict)
      else if o.timelock ≤ env.block_number then (st, .err .TimingViolation)
      else if hashFn preimage ≠ o.hashlock then (st, .err .SecretMismatch)
      else if env.transfer_ok f.taker f.fill_amount = false then
        (st, .err .TransferFailure)
      else
        let f' : Fill := { f with withdrawn := true, preimage := some preimage }
        ({ st with fills := alput st.fills fid f' }, .ok ())

/-- Modelled from the spec: `refund` (section 4.7) of the missing engine —
maker authorization, terminal flags, expiry, then the value transfer; on
success the fill is marked refunded and the order's `filled_amount` and
`current_fills` are decremented, restoring capacity. -/
def refund_fill (env : Env) (st : EngineState) (fid : Nat) :
    EngineState × EResult Unit :=
  match alget st.fills fid with
  | none => (st, .err .NotFound)
  | some f =>
    match alget st.orders f.order_id with
    | none => (st, .err .NotFound)
    | some o =>
      if o.maker ≠ env.caller then (st, .err .Unauthorized)
      else if f.withdrawn || f.refunded then (st, .err .StateConflict)
      else if env.block_number < o.timelock then (st, .err .TimingViolation)
      else if env.transfer_ok o.maker f.fill_amount = false then
        (st, .err .TransferFailure)
      else
        let f' : Fill := { f with refunded := true }
        let o' : Order := { o with filled_amount := o.filled_amount - f.fill_amount, current_fills := o.current_fills - 1 }
        ({ st with fills := alput st.fills fid f', orders := alput st.orders f.order_id o' }, .ok ())

/-- Modelled from the spec: `cancel_order` (section 4.8) of the missing
engine — maker-only, not already cancelled, releases the unclaimed
remainder and sets the terminal `cancelled` flag. -/
def cancel_order (env : Env) (st : EngineState) (oid : Nat) :
    EngineState × EResult Unit :=
  match alget st.orders oid with
  | none => (st, .err .NotFound)
  | some o =>
    if o.maker ≠ env.caller then (st, .err .Unauthorized)
    else if o.cancelled then (st, .err .StateConflict)
    else if env.transfer_ok o.maker (o.total_amount - o.filled_amount) =
        false then (st, .err .TransferFailure)
    else
      ({ st with orders := alput st.orders oid ({ o with cancelled := true }) },
        .ok ())

/-- Modelled from the spec: one call to any state-changing operation of the
missing engine. -/
inductive EMsg where
  | create_order (env : Env) (total min_fill : Nat) (hashlock : Bytes)
      (timelock : Nat) (allow_split : Bool) (max_fills : Nat)
  | fill_order (env : Env) (oid requested : Nat)
  | withdraw_fill (env : Env) (fid : Nat) (preimage : Bytes)
  | refund_fill (env : Env) (fid : Nat)
  | cancel_order (env : Env) (oid : Nat)

/-- Modelled from the spec: dispatch of one engine operation (each
operation is atomic: on error it returns the unchanged state). -/
def estep (hashFn : Bytes → Bytes) (st : EngineState) : EMsg → EngineState
  | .create_order env total min_fill hl tl alsp mf =>
      (create_order env st total min_fill hl tl alsp mf).1
  | .fill_order env oid requested => (fill_order env st oid requested).1
  | .withdraw_fill env fid p => (withdraw_fill hashFn env st fid p).1
  | .refund_fill env fid => (refund_fill env st fid).1
  | .cancel_order env oid => (cancel_order env st oid).1

/-- Modelled from the spec: engine states reachable from a fresh
deployment by any sequence of operations. -/
inductive ereach (hashFn : Bytes → Bytes) : EngineState → Prop
  | init (minT maxT : Nat) : ereach hashFn (EngineState.init minT maxT)
  | step {st : EngineState} (m : EMsg) :
      ereach hashFn st → ereach hashFn (estep hashFn st m)

/-- Sum of `fill_amount` over the not-refunded fills of one order. -/
def sumFills : List (Nat × Fill) → Nat → Nat
  | [], _ => 0
  | (_, f) :: t, oid =>
      (if f.order_id = oid ∧ f.refunded = false then f.fill_amount else 0) +
        sumFills t oid

/-! Association-list and fill-sum lemmas for the C8 invariant. -/

theorem mem_alput {κ α : Type} [DecidableEq κ] {l : List (κ × α)} {k : κ}
    {v : α} {p : κ × α} (h : p ∈ alput l k v) : p = (k, v) ∨ p ∈ l := by
  induction l with
  | nil => simpa [alput] using h
  | cons hd t ih =>
    obtain ⟨k₀, v₀⟩ := hd
    by_cases hk : k₀ = k
    · simp only [alput, if_pos hk] at h
      rcases List.mem_cons.mp h with h | h
      · exact Or.inl h
      · exact Or.inr (List.mem_cons_of_mem _ h)
    · simp only [alput, if_neg hk] at h
      rcases List.mem_cons.mp h with h | h
      · exact Or.inr (h ▸ List.mem_cons_self _ _)
      · rcases ih h with h' | h'
        · exact Or.inl h'
        · exact Or.inr (List.mem_cons_of_mem _ h')

theorem alget_mem {κ α : Type} [DecidableEq κ] {l : List (κ × α)} {k : κ}
    {v : α} (h : alget l k = some v) : (k, v) ∈ l := by
  induction l with
  | nil => simp [alget] at h
  | cons hd t ih =>
    obtain ⟨k₀, v₀⟩ := hd
    by_cases hk : k₀ = k
    · subst hk
      simp [alget] at h
      subst h
      exact List.mem_cons_self _ _
    · simp only [alget, if_neg hk] at h
      exact List.mem_cons_of_mem _ (ih h)

theorem alget_eq_none {κ α : Type} [DecidableEq κ] {l : List (κ × α)}
    {k : κ} (h : ∀ p ∈ l, p.1 ≠ k) : alget l k = none := by
  induction l with
  | nil => rfl
  | cons hd t ih =>
    obtain ⟨k₀, v₀⟩ := hd
    have hk : k₀ ≠ k := h (k₀, v₀) (List.mem_cons_self _ _)
    simp only [alget, if_neg hk]
    exact ih (fun p hp => h p (List.mem_cons_of_mem _ hp))

theorem sumFills_zero {fills : List (Nat × Fill)} {oid : Nat}
    (h : ∀ p ∈ fills, p.2.order_id ≠ oid) : sumFills fills oid = 0 := by
  induction fills with
  | nil => rfl
  | cons hd t ih =>
    obtain ⟨k₀, f₀⟩ := hd
    have hne : f₀.order_id ≠ oid := h (k₀, f₀) (List.mem_cons_self _ _)
    simp only [sumFills]
    rw [if_neg (by simp [hne]), ih (fun p hp => h p (List.mem_cons_of_mem _ hp))]

theorem sumFills_alput_absent {fills : List (Nat × Fill)} {fid : Nat}
    (f : Fill) (oid : Nat) (h : alget fills fid = none) :
    sumFills (alput fills fid f) oid =
      sumFills fills oid +
        (if f.order_id = oid ∧ f.refunded = false then f.fill_amount
          else 0) := by
  induction fills with
  | nil => simp [alput, sumFills]
  | cons hd t ih =>
    obtain ⟨k₀, f₀⟩ := hd
    by_cases hk : k₀ = fid
    · simp [alget, if_pos hk] at h
    · simp only [alget, if_neg hk] at h
      simp only [alput, if_neg hk, sumFills, ih h]
      omega

theorem sumFills_alput_present {fills : List (Nat × Fill)} {fid : Nat}
    {f₀ : Fill} (f : Fill) (oid : Nat) (h : alget fills fid = some f₀) :
    sumFills (alput fills fid f) oid +
        (if f₀.order_id = oid ∧ f₀.refunded = false then f₀.fill_amount
          else 0) =
      sumFills fills oid +
        (if f.order_id = oid ∧ f.refunded = false then f.fill_amount
          else 0) := by
  induction fills with
  | nil => simp [alget] at h
  | cons hd t ih =>
    obtain ⟨k₀, f₁⟩ := hd
    by_cases hk : k₀ = fid
    · simp only [alget, if_pos hk, Option.some.injEq] at h
      subst h
      simp only [alput, if_pos hk, sumFills]
      omega
    · simp only [alget, if_neg hk] at h
      simp only [alput, if_neg hk, sumFills]
      have := ih h
      omega

theorem sumFills_ge {fills : List (Nat × Fill)} {fid : Nat} {f : Fill}
    {oid : Nat} (h : alget fills fid = some f) (ho : f.order_id = oid)
    (hr : f.refunded = false) : f.fill_amount ≤ sumFills fills oid := by
  induction fills with
  | nil => simp [alget] at h
  | cons hd t ih =>
    obtain ⟨k₀, f₁⟩ := hd
    by_cases hk : k₀ = fid
    · simp only [alget, if_pos hk, Option.some.injEq] at h
      subst h
      simp only [sumFills, if_pos (And.intro ho hr)]
      omega
    · simp only [alget, if_neg hk] at h
      have := ih h
      simp only [sumFills]
      omega

/-- The inductive invariant of the engine: order and fill keys are bounded
by the counters, every fill references an already issued order id, and
every order's `filled_amount` is the sum of its not-refunded fills and is
at most `total_amount`. -/
def EngineInv (st : EngineState) : Prop :=
  (∀ p ∈ st.orders, p.1 ≤ st.order_counter) ∧
  (∀ p ∈ st.fills, p.1 ≤ st.fill_counter ∧
    p.2.order_id ≤ st.order_counter) ∧
  (∀ oid o, alget st.orders oid = some o →
    o.filled_amount = sumFills st.fills oid ∧
    o.filled_amount ≤ o.total_amount)

theorem create_order_inv (env : Env) (st : EngineState)
    (total min_fill : Nat) (hl : Bytes) (tl : Nat) (alsp : Bool) (mf : Nat)
    (h : EngineInv st) :
    EngineInv (create_order env st total min_fill hl tl alsp mf).1 := by
  unfold create_order
  dsimp only
  split_ifs with h1 h2 h3 h4 h5 h6 h7 h8
  any_goals exact h
  obtain ⟨hob, hfb, hacc⟩ := h
  refine ⟨?_, ?_, ?_⟩
  · intro p hp
    rcases mem_alput hp with rfl | hp'
    · exact Nat.le_refl _
    · exact Nat.le_trans (hob p hp') (Nat.le_succ _)
  · intro p hp
    exact ⟨(hfb p hp).1, Nat.le_trans (hfb p hp).2 (Nat.le_succ _)⟩
  · intro oid o hoget
    by_cases heq : oid = st.order_counter + 1
    · subst heq
      rw [alget_alput_self] at hoget
      have hz : sumFills st.fills (st.order_counter + 1) = 0 :=
        sumFills_zero (fun p hp => by
          have := (hfb p hp).2
          omega)
      cases hoget
      simp [hz]
    · rw [alget_alput_ne _ _ _ _ (fun he => heq he.symm)] at hoget
      exact hacc oid o hoget

theorem fill_order_inv (env : Env) (st : EngineState) (oid requested : Nat)
    (h : EngineInv st) : EngineInv (fill_order env st oid requested).1 := by
  unfold fill_order
  cases hoget : alget st.orders oid with
  | none => exact h
  | some o =>
  dsimp only
  split_ifs with h1 h2 h3 h4 h5 h6 h7 h8
  any_goals exact h
  obtain ⟨hob, hfb, hacc⟩ := h
  have hfresh : alget st.fills (st.fill_counter + 1) = none :=
    alget_eq_none (fun p hp => by have := (hfb p hp).1; omega)
  have hoidle : oid ≤ st.order_counter := hob _ (alget_mem hoget)
  obtain ⟨hfe, hft⟩ := hacc oid o hoget
  refine ⟨?_, ?_, ?_⟩
  · intro p hp
    rcases mem_alput hp with rfl | hp'
    · exact hoidle
    · exact hob p hp'
  · intro p hp
    rcases mem_alput hp with rfl | hp'
    · exact ⟨Nat.le_refl _, hoidle⟩
    · exact ⟨Nat.le_trans (hfb p hp').1 (Nat.le_succ _), (hfb p hp').2⟩
  · intro oid' o' hoget'
    by_cases heq : oid' = oid
    · subst heq
      rw [alget_alput_self] at hoget'
      cases hoget'
      have habs := sumFills_alput_absent
        (⟨oid', env.caller, min requested (o.total_amount - o.filled_amount),
          false, false, none⟩ : Fill) oid' hfresh
      rw [if_pos ⟨rfl, rfl⟩] at habs
      have hmin : min requested (o.total_amount - o.filled_amount) ≤
          o.total_amount - o.filled_amount := Nat.min_le_right _ _
      constructor
      · rw [habs]
        dsimp only
        omega
      · dsimp only
        omega
    · rw [alget_alput_ne _ _ _ _ (fun he => heq he.symm)] at hoget'
      obtain ⟨he, ht⟩ := hacc oid' o' hoget'
      have habs := sumFills_alput_absent
        (⟨oid, env.caller, min requested (o.total_amount - o.filled_amount),
          false, false, none⟩ : Fill) oid' hfresh
      rw [if_neg (fun hc => heq hc.1.symm)] at habs
      rw [habs]
      exact ⟨by omega, ht⟩

theorem withdraw_fill_inv (hashFn : Bytes → Bytes) (env : Env)
    (st : EngineState) (fid : Nat) (p : Bytes) (h : EngineInv st) :
    EngineInv (withdraw_fill hashFn env st fid p).1 := by
  unfold withdraw_fill
  cases hfget : alget st.fills fid with
  | none => exact h
  | some f =>
  dsimp only
  cases hoget : alget st.orders f.order_id with
  | none => exact h
  | some o =>
  dsimp only
  split_ifs with h1 h2 h3 h4 h5
  any_goals exact h
  obtain ⟨hob, hfb, hacc⟩ := h
  have hmemf := hfb _ (alget_mem hfget)
  refine ⟨hob, ?_, ?_⟩
  · intro q hq
    rcases mem_alput hq with rfl | hq'
    · exact ⟨hmemf.1, hmemf.2⟩
    · exact hfb q hq'
  · intro oid' o' hoget'
    obtain ⟨he, ht⟩ := hacc oid' o' hoget'
    have hpres := sumFills_alput_present
      ({ f with withdrawn := true, preimage := some p } : Fill) oid' hfget
    dsimp only at hpres
    constructor
    · dsimp only
      omega
    · exact ht

theorem refund_fill_inv (env : Env) (st : EngineState) (fid : Nat)
    (h : EngineInv st) : EngineInv (refund_fill env st fid).1 := by
  unfold refund_fill
  cases hfget : alget st.fills fid with
  | none => exact h
  | some f =>
  dsimp only
  cases hoget : alget st.orders f.order_id with
  | none => exact h
  | some o =>
  dsimp only
  split_ifs with h1 h2 h3 h4
  any_goals exact h
  obtain ⟨hob, hfb, hacc⟩ := h
  have hmemf := hfb _ (alget_mem hfget)
  have hflags : f.withdrawn = false ∧ f.refunded = false := by
    simpa using h2
  obtain ⟨hfe, hft⟩ := hacc f.order_id o hoget
  have hge := sumFills_ge hfget rfl hflags.2
  refine ⟨?_, ?_, ?_⟩
  · intro q hq
    rcases mem_alput hq with rfl | hq'
    · exact hob (f.order_id, o) (alget_mem hoget)
    · exact hob q hq'
  · intro q hq
    rcases mem_alput hq with rfl | hq'
    · exact hmemf
    · exact hfb q hq'
  · intro oid' o' hoget'
    have hpres := sumFills_alput_present ({ f with refunded := true } : Fill)
      oid' hfget
    by_cases heq : oid' = f.order_id
    · subst heq
      rw [alget_alput_self] at hoget'
      cases hoget'
      rw [if_pos ⟨rfl, hflags.2⟩] at hpres
      rw [if_neg (by simp)] at hpres
      constructor
      · dsimp only
        omega
      · dsimp only
        omega
    · rw [alget_alput_ne _ _ _ _ (fun he => heq he.symm)] at hoget'
      obtain ⟨he, ht⟩ := hacc oid' o' hoget'
      rw [if_neg (fun hc => heq hc.1.symm)] at hpres
      rw [if_neg (fun hc => heq hc.1.symm)] at hpres
      constructor
      · dsimp only
        omega
      · exact ht

theorem cancel_order_inv (env : Env) (st : EngineState) (oid : Nat)
    (h : EngineInv st) : EngineInv (cancel_order env st oid).1 := by
  unfold cancel_order
  cases hoget : alget st.orders oid with
  | none => exact h
  | some o =>
  dsimp only
  split_ifs with h1 h2 h3
  any_goals exact h
  obtain ⟨hob, hfb, hacc⟩ := h
  refine ⟨?_, hfb, ?_⟩
  · intro q hq
    rcases mem_alput hq with rfl | hq'
    · exact hob (oid, o) (alget_mem hoget)
    · exact hob q hq'
  · intro oid' o' hoget'
    by_cases heq : oid' = oid
    · subst heq
      rw [alget_alput_self] at hoget'
      cases hoget'
      exact hacc oid' o hoget
    · rw [alget_alput_ne _ _ _ _ (fun he => heq he.symm)] at hoget'
      exact hacc oid' o' hoget'

theorem estep_inv (hashFn : Bytes → Bytes) (st : EngineState) (m : EMsg)
    (h : EngineInv st) : EngineInv (estep hashFn st m) := by
  cases m with
  | create_order env total min_fill hl tl alsp mf =>
    exact create_order_inv env st total min_fill hl tl alsp mf h
  | fill_order env oid requested => exact fill_order_inv env st oid requested h
  | withdraw_fill env fid p => exact withdraw_fill_inv hashFn env st fid p h
  | refund_fill env fid => exact refund_fill_inv env st fid h
  | cancel_order env oid => exact cancel_order_inv env st oid h

theorem ereach_inv {hashFn : Bytes → Bytes} {st : EngineState}
    (h : ereach hashFn st) : EngineInv st := by
  induction h with
  | init minT maxT =>
    refine ⟨?_, ?_, ?_⟩
    · intro p hp
      simp [EngineState.init] at hp
    · intro p hp
      simp [EngineState.init] at hp
    · intro oid o hg
      simp [EngineState.init, alget] at hg
  | step m hr ih => exact estep_inv _ _ m ih

/-- C8: in every reachable state of the (spec-modelled) order/fill engine,
every stored order's `filled_amount` equals the sum of `fill_amount` over
its not-refunded fills, and that sum never exceeds the order's
`total_amount`. -/
theorem C8_fill_accounting :
    ∀ (hashFn : Bytes → Bytes) (st : EngineState), ereach hashFn st →
      ∀ (oid : Nat) (o : Order), alget st.orders oid = some o →
        o.filled_amount = sumFills st.fills oid ∧
        sumFills st.fills oid ≤ o.total_amount := by
  intro hashFn st hr oid o hg
  obtain ⟨-, -, hacc⟩ := ereach_inv hr
  obtain ⟨h1, h2⟩ := hacc oid o hg
  exact ⟨h1, h1 ▸ h2⟩

/-- Creation environment of the engine fixture: maker `[1]`, block 0,
1000 units attached. -/
def env_ec₀ : Env := ⟨[1], 0, 1000, fun _ _ => true⟩

/-- Fill environment of the engine fixture: taker `[2]`, block 50. -/
def env_ef₀ : Env := ⟨[2], 50, 0, fun _ _ => true⟩

/-- Engine fixture: fresh engine with timelock bounds 10 and 1000. -/
def est₀ : EngineState := EngineState.init 10 1000

/-- Engine fixture after creating order 1 (total 1000, min fill 100,
timelock 100, split fills allowed, at most 5 fills). -/
def est₁ : EngineState :=
  estep hashFn₀ est₀ (EMsg.create_order env_ec₀ 1000 100 [7] 100 true 5)

/-- Engine fixture after a fill of 200 against order 1. -/
def est₂ : EngineState := estep hashFn₀ est₁ (EMsg.fill_order env_ef₀ 1 200)

/-- The fixture order after the 200-unit fill. -/
def ord₁ : Order :=
  { maker := [1], total_amount := 1000, filled_amount := 200
    min_fill_amount := 100, hashlock := [7], timelock := 100
    cancelled := false, allow_split_fills := true, max_fills := 5
    current_fills := 1 }

/-- Witness for C8: after creating order 1 and filling 200 of it, the
stored `filled_amount` 200 equals the fill sum and is at most 1000. -/
theorem C8_fill_accounting_witness :
    ord₁.filled_amount = sumFills est₂.fills 1 ∧
    sumFills est₂.fills 1 ≤ ord₁.total_amount :=
  C8_fill_accounting hashFn₀ est₂
    (ereach.step (EMsg.fill_order env_ef₀ 1 200)
      (ereach.step (EMsg.create_order env_ec₀ 1000 100 [7] 100 true 5)
        (ereach.init 10 1000)))
    1 ord₁ (by decide)

end polkadotrelayer
